import Mathlib

/-!
Shallow embedding of the DIRT subsystem of the SpyGame repository:
the verb-similarity model builder (`src/dirt_builder.py`, function
`calcular_similitudes_verbos`) and the model loader / applier
(`src/utils_dirt.py`, functions `cargar_modelo`,
`construir_diccionario_equivalencias`, `sustituir_verbo_en_frase`,
`aplicar_DIRT`).

Modelling conventions:
* Python floats are embedded as exact rationals (`ℚ`); `round(x, 3)` is
  round-half-to-even on `x * 1000`, as Python's `round` computes.
* The file system seen by `cargar_modelo` is a value of type `Archivo`:
  `none` (file absent), `some none` (file exists, `json.load` raises),
  `some (some j)` (file parses to the JSON value `j`).
* The linguistic oracle (spaCy) is an explicit parameter
  `parse : String → List Token`; the `except`-fallback branches taken when
  spaCy cannot be loaded are not modelled (the oracle is assumed available,
  as in every claim considered here).
* `random.random()` is an explicit read from a stream of rationals
  (`List ℚ`); a sentinel draw of 0 is produced if the stream runs dry.
* A raised Python exception is modelled as `Except.error ()`.
* The module-level model cache of `utils_dirt.py` is not modelled: all
  functions are given first-call (cold-cache) semantics.
-/

namespace DIRT

/-- JSON values, the contents of the model artifact file. -/
inductive Json where
  | nulo : Json
  | booleano : Bool → Json
  | numero : ℚ → Json
  | cadena : String → Json
  | lista : List Json → Json
  | objeto : List (String × Json) → Json

/-- Field lookup in a JSON object (keys assumed distinct, as produced by
`json.load` on the artifacts considered here). -/
def buscarCampo : List (String × Json) → String → Option Json
  | [], _ => none
  | (k, v) :: resto, clave => if k = clave then some v else buscarCampo resto clave

/-- Checks whether `pat` is a prefix of `s` (on character lists). -/
def esPrefijoDe : List Char → List Char → Bool
  | [], _ => true
  | _ :: _, [] => false
  | c :: cs, d :: ds => c = d && esPrefijoDe cs ds

/-- Checks whether `pat` occurs as a contiguous substring of `s`. -/
def contieneSub (pat : List Char) : List Char → Bool
  | [] => esPrefijoDe pat []
  | c :: resto => esPrefijoDe pat (c :: resto) || contieneSub pat resto

/-- Python `x == "equivalencias"` for an arbitrary JSON element `x`
(a non-string element never equals a string). -/
def esCadenaEquivalencias : Json → Bool
  | .cadena s => s = "equivalencias"
  | _ => false

/-- Python's `"equivalencias" in modelo` for an arbitrary JSON value: key test
on objects, element test on lists, substring test on strings, and a
`TypeError` (modelled as `.error ()`) on every other value. -/
def contieneClave : Json → Except Unit Bool
  | .objeto campos => .ok (campos.any (fun kv => kv.1 = "equivalencias"))
  | .lista xs => .ok (xs.any esCadenaEquivalencias)
  | .cadena s => .ok (contieneSub ("equivalencias".data) s.data)
  | _ => .error ()

/-- The file at the model path: `none` = absent, `some none` = present but
`json.load` raises, `some (some j)` = parses to `j`. -/
abbrev Archivo := Option (Option Json)

/-- Source: `utils_dirt.cargar_modelo` (lines 28-63), cold-cache semantics.  The
`try/except` around `json.load` and the membership test turns any raised
exception into `None`; the only structural check performed is
`"equivalencias" not in modelo`. -/
def cargar_modelo (archivo : Archivo) : Option Json :=
  match archivo with
  | none => none
  | some none => none
  | some (some modelo) =>
      match contieneClave modelo with
      | .error _ => none
      | .ok false => none
      | .ok true => some modelo

/-- A subject-verb-object triple; `"_"` is the sentinel for a missing object
(`dirt_builder.extraer_triples_svo`). -/
structure Triple where
  sujeto : String
  verbo : String
  objeto : String
deriving DecidableEq, Repr

/-- A Python `Counter` over strings, in key-insertion order. -/
abbrev Contador := List (String × Nat)

/-- Source: `contador[clave] += 1`: bump an existing key, or append it with count 1. -/
def incr (clave : String) : Contador → Contador
  | [] => [(clave, 1)]
  | (k, n) :: resto =>
      if k = clave then (k, n + 1) :: resto else (k, n) :: incr clave resto

/-- Source: `contador[clave]` with `Counter` semantics (0 for a missing key). -/
def cuentaDe : Contador → String → Nat
  | [], _ => 0
  | (k, n) :: resto, clave => if k = clave then n else cuentaDe resto clave

/-- Source: `list(contador.keys())`. -/
def claves (m : Contador) : List String := m.map Prod.fst

/-- Source: `sum(contador.values())`. -/
def sumaCuentas (m : Contador) : Nat := (m.map Prod.snd).sum

/-- Source: `verbos_con_contexto[v]["sujetos"]` after the aggregation loop of
`calcular_similitudes_verbos` (lines 235-239). -/
def sujetosDe (triples : List Triple) (v : String) : Contador :=
  triples.foldl (fun acc t => if t.verbo = v then incr t.sujeto acc else acc) []

/-- Source: `verbos_con_contexto[v]["objetos"]` after the aggregation loop:
only triples with a non-sentinel object are counted. -/
def objetosDe (triples : List Triple) (v : String) : Contador :=
  triples.foldl
    (fun acc t => if t.verbo = v ∧ t.objeto ≠ "_" then incr t.objeto acc else acc) []

/-- Source: `freq_verbos` (lines 242-244). -/
def freqVerbos (triples : List Triple) : Contador :=
  triples.foldl (fun acc t => incr t.verbo acc) []

/-- Source: `freq_verbos[v]`. -/
def freqDe (triples : List Triple) (v : String) : Nat :=
  cuentaDe (freqVerbos triples) v

/-- Source: `verbos = list(verbos_con_contexto.keys())` (line 247): the verbs in
first-appearance order.  `verbos_con_contexto` and `freq_verbos` receive
exactly one insertion per triple, keyed by the triple's verb, so their key
lists coincide; we read the keys off `freq_verbos`. -/
def verbosDe (triples : List Triple) : List String := claves (freqVerbos triples)

/-- Python `round` to an integer: round half to even. -/
def redondeoMedioPar (q : ℚ) : ℤ :=
  if q - ⌊q⌋ < 1/2 then ⌊q⌋
  else if 1/2 < q - ⌊q⌋ then ⌊q⌋ + 1
  else if ⌊q⌋ % 2 = 0 then ⌊q⌋ else ⌊q⌋ + 1

/-- Python `round(q, 3)`. -/
def round3 (q : ℚ) : ℚ := (redondeoMedioPar (q * 1000) : ℚ) / 1000

/-- Source: `set(xs) & set(ys)` realised on key lists (which are duplicate-free). -/
def interseccion (xs ys : List String) : List String :=
  xs.filter (fun x => decide (x ∈ ys))

/-- Source: `set(contexto_a["sujetos"].keys())` as a list. -/
def clavesSujetos (triples : List Triple) (v : String) : List String :=
  claves (sujetosDe triples v)

/-- Source: `set(contexto_a["objetos"].keys())` as a list. -/
def clavesObjetos (triples : List Triple) (v : String) : List String :=
  claves (objetosDe triples v)

/-- Source: `sujetos_comunes` (line 260). -/
def sujetosComunes (triples : List Triple) (va vb : String) : List String :=
  interseccion (clavesSujetos triples va) (clavesSujetos triples vb)

/-- Source: `objetos_comunes` (line 262). -/
def objetosComunes (triples : List Triple) (va vb : String) : List String :=
  interseccion (clavesObjetos triples va) (clavesObjetos triples vb)

/-- Source: `total_contextos_a = len(contexto_a["sujetos"]) + len(contexto_a["objetos"])`. -/
def totalContextos (triples : List Triple) (v : String) : Nat :=
  (clavesSujetos triples v).length + (clavesObjetos triples v).length

/-- Source: `contextos_compartidos = len(sujetos_comunes) + len(objetos_comunes)`. -/
def contextosCompartidos (triples : List Triple) (va vb : String) : Nat :=
  (sujetosComunes triples va vb).length + (objetosComunes triples va vb).length

/-- Source: `similitud = contextos_compartidos / union if union > 0 else 0`, with
`union = total_contextos_a + total_contextos_b - contextos_compartidos`. -/
def similitudDe (triples : List Triple) (va vb : String) : ℚ :=
  let union : ℤ := (totalContextos triples va : ℤ) + (totalContextos triples vb : ℤ)
    - (contextosCompartidos triples va vb : ℤ)
  if 0 < union then (contextosCompartidos triples va vb : ℚ) / (union : ℚ) else 0

/-- Source: `ratio_freq = min(freq_a, freq_b) / max(freq_a, freq_b) if max(...) > 0 else 0`. -/
def ratioFreq (triples : List Triple) (va vb : String) : ℚ :=
  if 0 < max (freqDe triples va) (freqDe triples vb) then
    (min (freqDe triples va) (freqDe triples vb) : ℚ)
      / (max (freqDe triples va) (freqDe triples vb) : ℚ)
  else 0

/-- Source: `score = (similitud * 0.7) + (ratio_freq * 0.3)` before rounding. -/
def scoreCrudo (triples : List Triple) (va vb : String) : ℚ :=
  similitudDe triples va vb * (7/10) + ratioFreq triples va vb * (3/10)

/-- One record of the `equivalencias` list produced by the builder. -/
structure Equivalencia where
  a : String
  b : String
  score : ℚ
  contextos_compartidos : Nat
  freq_a : Nat
  freq_b : Nat
deriving DecidableEq, Repr

/-- The body of the inner pair loop of `calcular_similitudes_verbos`
(lines 255-292): `None` models a pair that is skipped, `some` a pair that is
appended to `equivalencias`. -/
def evaluarPar (triples : List Triple) (umbral : ℚ) (va vb : String) :
    Option Equivalencia :=
  if (sujetosComunes triples va vb).isEmpty && (objetosComunes triples va vb).isEmpty
  then none
  else if 0 < totalContextos triples va ∧ 0 < totalContextos triples vb then
    if umbral ≤ scoreCrudo triples va vb then
      some ⟨va, vb, round3 (scoreCrudo triples va vb),
            contextosCompartidos triples va vb,
            freqDe triples va, freqDe triples vb⟩
    else none
  else none

/-- Source: `for i, verbo_a in enumerate(verbos): for verbo_b in verbos[i+1:]`:
the ordered pairs visited by the double loop. -/
def paresOrdenados : List String → List (String × String)
  | [] => []
  | a :: resto => resto.map (fun b => (a, b)) ++ paresOrdenados resto

/-- Source: `dirt_builder.calcular_similitudes_verbos` (lines 218-307): evaluate every
pair (with the `verbo_a == verbo_b: continue` guard), then sort by score
descending (Python's stable sort). -/
def calcular_similitudes_verbos (triples : List Triple) (umbral : ℚ) :
    List Equivalencia :=
  ((paresOrdenados (verbosDe triples)).filterMap
    (fun p => if p.1 = p.2 then none else evaluarPar triples umbral p.1 p.2)).mergeSort
    (fun x y => decide (y.score ≤ x.score))

/-! ### Claim-language scorer quantities

The spec (§4.3) states the score formula in terms of *sets of distinct
lemmas*; the following definitions transcribe the spec's words, to be
compared with the code-derived quantities above. -/

/-- Spec: the set of distinct subject lemmas seen with verb `v`. -/
def sujetosSpec (triples : List Triple) (v : String) : Finset String :=
  ((triples.filter (fun t => t.verbo = v)).map Triple.sujeto).toFinset

/-- Spec: the set of distinct object lemmas (non-sentinel) seen with verb `v`. -/
def objetosSpec (triples : List Triple) (v : String) : Finset String :=
  ((triples.filter (fun t => t.verbo = v ∧ t.objeto ≠ "_")).map Triple.objeto).toFinset

/-- Spec: the number of triples whose verb is `v`. -/
def freqSpec (triples : List Triple) (v : String) : Nat :=
  (triples.filter (fun t => t.verbo = v)).length

/-- Spec: `shared = |subjects_A ∩ subjects_B| + |objects_A ∩ objects_B|`. -/
def sharedSpec (triples : List Triple) (va vb : String) : Nat :=
  (sujetosSpec triples va ∩ sujetosSpec triples vb).card
    + (objetosSpec triples va ∩ objetosSpec triples vb).card

/-- Spec: `total_X = |distinct subjects_X| + |distinct objects_X|`. -/
def totalSpec (triples : List Triple) (v : String) : Nat :=
  (sujetosSpec triples v).card + (objetosSpec triples v).card

/-- Spec: `jaccard = shared / (total_A + total_B - shared)`, 0 when the
denominator is ≤ 0. -/
def jaccardSpec (triples : List Triple) (va vb : String) : ℚ :=
  if 0 < (totalSpec triples va : ℤ) + (totalSpec triples vb : ℤ)
      - (sharedSpec triples va vb : ℤ) then
    (sharedSpec triples va vb : ℚ)
      / ((totalSpec triples va : ℚ) + (totalSpec triples vb : ℚ)
          - (sharedSpec triples va vb : ℚ))
  else 0

/-- Spec: `freq_ratio = min(freq_A, freq_B) / max(freq_A, freq_B)`, 0 when the
max is 0. -/
def ratioSpec (triples : List Triple) (va vb : String) : ℚ :=
  if 0 < max (freqSpec triples va) (freqSpec triples vb) then
    (min (freqSpec triples va) (freqSpec triples vb) : ℚ)
      / (max (freqSpec triples va) (freqSpec triples vb) : ℚ)
  else 0

/-- Spec: `score = 0.7 * jaccard + 0.3 * freq_ratio`. -/
def scoreSpec (triples : List Triple) (va vb : String) : ℚ :=
  (7/10) * jaccardSpec triples va vb + (3/10) * ratioSpec triples va vb

/-! ### The applier (`utils_dirt.py`) -/

/-- A token as delivered by the linguistic oracle: surface form, lemma,
part-of-speech tag. -/
structure Token where
  texto : String
  lema : String
  pos : String
deriving DecidableEq, Repr

/-- The linguistic oracle: spaCy's `nlp`, reduced to the facets the applier
reads (token enumeration with surface/lemma/POS). -/
abbrev Analizador := String → List Token

/-- The equivalence index `{verbo: [(equivalente, score), ...]}`, in
key-insertion order. -/
abbrev DiccEquiv := List (String × List (String × ℚ))

/-- Source: `equivalencias_dict[clave].append(valor)` (creating the key if absent,
as the `if ... not in` guard does). -/
def agregarEquiv (clave : String) (valor : String × ℚ) : DiccEquiv → DiccEquiv
  | [] => [(clave, [valor])]
  | (k, vs) :: resto =>
      if k = clave then (k, vs ++ [valor]) :: resto
      else (k, vs) :: agregarEquiv clave valor resto

/-- Source: `equivalencias_dict.get(clave)`. -/
def buscarEquiv : DiccEquiv → String → Option (List (String × ℚ))
  | [], _ => none
  | (k, vs) :: resto, clave => if k = clave then some vs else buscarEquiv resto clave

/-- One element of the `equivalencias` list, as read by
`construir_diccionario_equivalencias`: `eq["a"]`, `eq["b"]`, `eq["score"]`.
A boolean score is read as the number Python treats it as (`True` is 1).
A record that is not an object, or a missing field, raises in Python
(`TypeError` / `KeyError`) and is `.error ()` here; verb fields of other
runtime types are modelled conservatively as a raised exception — no claim
below depends on such records. -/
def extraerRegistro (j : Json) : Except Unit (String × String × ℚ) :=
  match j with
  | .objeto campos =>
      match buscarCampo campos ("a"), buscarCampo campos ("b"),
            buscarCampo campos ("score") with
      | some (.cadena a), some (.cadena b), some (.numero s) => .ok (a, b, s)
      | some (.cadena a), some (.cadena b), some (.booleano sb) =>
          .ok (a, b, if sb then 1 else 0)
      | _, _, _ => .error ()
  | _ => .error ()

/-- Sequence `extraerRegistro` over the record list. -/
def extraerRegistros : List Json → Except Unit (List (String × String × ℚ))
  | [] => .ok []
  | j :: resto => do
      let r ← extraerRegistro j
      let rs ← extraerRegistros resto
      .ok (r :: rs)

/-- Source: `utils_dirt.construir_diccionario_equivalencias` (lines 66-96): insert each
record under both verbs (first under `a`, then under `b`), then sort every
entry list by score descending (Python's stable sort).  Iterating the
`equivalencias` value follows Python: a list yields its elements; a string
yields its characters and a dict its keys — both strings, so the record
access `eq["a"]` raises `TypeError` on any non-empty such value, while the
empty string and the empty dict iterate zero times and yield an empty index;
a number, boolean or null is not iterable and raises at once, as does
calling `.get` on a non-dict model.  Raised exceptions are `.error ()`. -/
def construir_diccionario_equivalencias (modelo : Json) : Except Unit DiccEquiv :=
  match modelo with
  | .objeto campos =>
      match (buscarCampo campos ("equivalencias")).getD (Json.lista []) with
      | .lista xs =>
          match extraerRegistros xs with
          | .error e => .error e
          | .ok registros =>
              .ok ((registros.foldl
                  (fun d r =>
                    agregarEquiv r.2.1 (r.1, r.2.2) (agregarEquiv r.1 (r.2.1, r.2.2) d))
                  []).map
                (fun kv => (kv.1, kv.2.mergeSort (fun x y => decide (y.2 ≤ x.2)))))
      | .cadena s => if s.data.isEmpty then .ok [] else .error ()
      | .objeto campos2 => if campos2.isEmpty then .ok [] else .error ()
      | _ => .error ()
  | _ => .error ()

/-- Python `s.replace(pat, rep, 1)` on character lists: replace the first
occurrence of `pat` (an empty `pat` matches at the start). -/
def reemplazarPrimeraLista (pat rep : List Char) : List Char → List Char
  | [] => if esPrefijoDe pat [] then rep else []
  | c :: resto =>
      if esPrefijoDe pat (c :: resto) then rep ++ (c :: resto).drop pat.length
      else c :: reemplazarPrimeraLista pat rep resto

/-- Python `s.replace(pat, rep, 1)` on strings. -/
def reemplazarPrimera (s pat rep : String) : String :=
  String.mk (reemplazarPrimeraLista pat.data rep.data s.data)

/-- Python `str.lower()`, realised character by character (structurally, so
that concrete instances evaluate). -/
def enMinusculas (s : String) : String := String.mk (s.data.map Char.toLower)

/-- Source: `utils_dirt.sustituir_verbo_en_frase` (lines 99-130), spaCy available:
find the first token whose lowered lemma equals the target verb and whose POS
is `VERB`, and replace the first occurrence of its surface form in the
sentence. -/
def sustituir_verbo_en_frase (parse : Analizador)
    (frase verbo_original verbo_nuevo : String) : String :=
  match (parse frase).find?
      (fun t => enMinusculas t.lema = enMinusculas verbo_original && t.pos = "VERB") with
  | some t => reemplazarPrimera frase t.texto verbo_nuevo
  | none => frase

/-- Source: `random.random()` read off an explicit stream (sentinel 0 when dry). -/
def sacarAzar : List ℚ → ℚ × List ℚ
  | [] => (0, [])
  | r :: resto => (r, resto)

/-- The token scan of `aplicar_DIRT` for one sentence (lines 189-215): for
each `VERB` token whose lowered lemma is a key of the index, draw one random
value; if it is below `probabilidad` and some entry reaches `min_score`,
substitute the first such entry and stop (`break`); otherwise keep scanning.
Returns the (possibly rewritten) sentence, the remaining stream, and whether
a substitution occurred. -/
def buscarYSustituir (parse : Analizador) (d : DiccEquiv)
    (probabilidad min_score : ℚ) (frase : String) :
    List Token → List ℚ → String × List ℚ × Bool
  | [], azar => (frase, azar, false)
  | t :: resto, azar =>
      if t.pos = "VERB" then
        match buscarEquiv d (enMinusculas t.lema) with
        | some entradas =>
            let (r, azar') := sacarAzar azar
            if r < probabilidad then
              match entradas.filter (fun e => decide (min_score ≤ e.2)) with
              | (nuevo, _) :: _ =>
                  (sustituir_verbo_en_frase parse frase (enMinusculas t.lema) nuevo,
                   azar', true)
              | [] => buscarYSustituir parse d probabilidad min_score frase resto azar'
            else buscarYSustituir parse d probabilidad min_score frase resto azar'
        | none => buscarYSustituir parse d probabilidad min_score frase resto azar
      else buscarYSustituir parse d probabilidad min_score frase resto azar

/-- Source: `max_sustituciones is not None and sustituciones_realizadas >= max_sustituciones`. -/
def presupuestoAgotado (max_sustituciones : Option Nat) (hechas : Nat) : Bool :=
  match max_sustituciones with
  | none => false
  | some m => m ≤ hechas

/-- The sentence loop of `aplicar_DIRT` (lines 178-217), threading the random
stream and the global substitution counter. -/
def aplicarBucle (parse : Analizador) (d : DiccEquiv)
    (probabilidad min_score : ℚ) (max_sustituciones : Option Nat) :
    List String → List ℚ → Nat → List String
  | [], _, _ => []
  | frase :: resto, azar, hechas =>
      if presupuestoAgotado max_sustituciones hechas then
        frase :: aplicarBucle parse d probabilidad min_score max_sustituciones
          resto azar hechas
      else
        match buscarYSustituir parse d probabilidad min_score frase
            (parse frase) azar with
        | (nueva, azar', sustituido) =>
            nueva :: aplicarBucle parse d probabilidad min_score max_sustituciones
              resto azar' (hechas + if sustituido then 1 else 0)

/-- Source: `utils_dirt.aplicar_DIRT` (lines 133-219), spaCy available: load the
model (passthrough on `None`), build the index (a raised exception
propagates), passthrough on an empty index, else run the sentence loop. -/
def aplicar_DIRT (archivo : Archivo) (parse : Analizador) (frases : List String)
    (probabilidad min_score : ℚ) (max_sustituciones : Option Nat)
    (azar : List ℚ) : Except Unit (List String) :=
  match cargar_modelo archivo with
  | none => .ok frases
  | some modelo =>
      match construir_diccionario_equivalencias modelo with
      | .error e => .error e
      | .ok d =>
          if d.isEmpty then .ok frases
          else .ok (aplicarBucle parse d probabilidad min_score max_sustituciones
            frases azar 0)

/-! ### Transcriptions of claim language (for comparison with the code) -/

/-- Splits a character list at spaces (auxiliary for `separarPalabras`). -/
def separarAux : List Char → List Char → List (List Char)
  | [], actual => [actual.reverse]
  | c :: resto, actual =>
      if c = ' ' then actual.reverse :: separarAux resto []
      else separarAux resto (c :: actual)

/-- Python `s.split(" ")`, realised structurally so that concrete instances
evaluate. -/
def separarPalabras (s : String) : List String :=
  (separarAux s.data []).map String.mk

/-- Transcription of claim C2 at token granularity: the output sentence
differs from the input sentence in at most one whitespace-separated word, and
any differing word is the surface form of a `VERB` token of the input
sentence.  (Used on sentences whose oracle tokens are exactly their
whitespace-separated words.) -/
def difiereSoloEnVerbos (parse : Analizador) (entrada salida : String) : Bool :=
  let wi := separarPalabras entrada
  let wo := separarPalabras salida
  let difs := (wi.zip wo).filter (fun p => decide (p.1 ≠ p.2))
  decide (wi.length = wo.length) && decide (difs.length ≤ 1) &&
    difs.all (fun p => (parse entrada).any (fun t => t.pos = "VERB" && t.texto = p.1))

/-- Is there at least one equivalence-index entry for this token's lemma with
score at least `min_score`?  (Claim C5's eligibility condition.) -/
def tieneElegible (d : DiccEquiv) (min_score : ℚ) (t : Token) : Bool :=
  ((buscarEquiv d (enMinusculas t.lema)).getD []).any (fun e => decide (min_score ≤ e.2))

/-- Picks the highest-scoring entry of `elegibles`, ties broken by position
(the first entry that is greater or equal to every entry). -/
def mejorElegible (elegibles : List (String × ℚ)) : Option (String × ℚ) :=
  elegibles.find? (fun e => elegibles.all (fun e2 => decide (e2.2 ≤ e.2)))

/-- Transcription of claim C5 as stated: within each sentence, exactly one
uniform value is drawn, for the first `VERB` token whose lemma has at least
one entry with score at least `min_score`; if the draw is below
`probabilidad`, the highest-scoring eligible equivalent is substituted. -/
def procesarFraseSegunClaim (parse : Analizador) (d : DiccEquiv)
    (probabilidad min_score : ℚ) (frase : String) (tokens : List Token)
    (azar : List ℚ) : String × List ℚ × Bool :=
  match tokens.find? (fun t => t.pos = "VERB" && tieneElegible d min_score t) with
  | none => (frase, azar, false)
  | some t =>
      let (r, azar') := sacarAzar azar
      if r < probabilidad then
        let entradas := (buscarEquiv d (enMinusculas t.lema)).getD []
        match mejorElegible (entradas.filter (fun e => decide (min_score ≤ e.2))) with
        | some mejor =>
            (sustituir_verbo_en_frase parse frase (enMinusculas t.lema) mejor.1, azar', true)
        | none => (frase, azar', false)
      else (frase, azar', false)

/-- The sentence loop as claim C5 describes it (one draw per sentence). -/
def aplicarBucleSegunClaim (parse : Analizador) (d : DiccEquiv)
    (probabilidad min_score : ℚ) (max_sustituciones : Option Nat) :
    List String → List ℚ → Nat → List String
  | [], _, _ => []
  | frase :: resto, azar, hechas =>
      if presupuestoAgotado max_sustituciones hechas then
        frase :: aplicarBucleSegunClaim parse d probabilidad min_score
          max_sustituciones resto azar hechas
      else
        match procesarFraseSegunClaim parse d probabilidad min_score frase
            (parse frase) azar with
        | (nueva, azar', sustituido) =>
            nueva :: aplicarBucleSegunClaim parse d probabilidad min_score
              max_sustituciones resto azar' (hechas + if sustituido then 1 else 0)

/-- The applier as claim C5 describes it. -/
def aplicar_DIRT_segunClaim (archivo : Archivo) (parse : Analizador)
    (frases : List String) (probabilidad min_score : ℚ)
    (max_sustituciones : Option Nat) (azar : List ℚ) :
    Except Unit (List String) :=
  match cargar_modelo archivo with
  | none => .ok frases
  | some modelo =>
      match construir_diccionario_equivalencias modelo with
      | .error e => .error e
      | .ok d =>
          if d.isEmpty then .ok frases
          else .ok (aplicarBucleSegunClaim parse d probabilidad min_score
            max_sustituciones frases azar 0)

/-- The amended per-sentence behaviour (claim C5 corrected): one uniform value
is drawn for *each* `VERB` token whose lemma is a key of the index — whether
or not any entry reaches `min_score` — until a draw below `probabilidad`
coincides with a non-empty set of eligible entries; then the highest-scoring
eligible equivalent (ties: first in the pre-sorted index) is substituted and
the scan stops. -/
def procesarFraseEnmendada (parse : Analizador) (d : DiccEquiv)
    (probabilidad min_score : ℚ) (frase : String) :
    List Token → List ℚ → String × List ℚ × Bool
  | [], azar => (frase, azar, false)
  | t :: resto, azar =>
      match (if t.pos = "VERB" then buscarEquiv d (enMinusculas t.lema) else none) with
      | some entradas =>
          let (r, azar') := sacarAzar azar
          match (if r < probabilidad then
              mejorElegible (entradas.filter (fun e => decide (min_score ≤ e.2)))
            else none) with
          | some mejor =>
              (sustituir_verbo_en_frase parse frase (enMinusculas t.lema) mejor.1,
               azar', true)
          | none => procesarFraseEnmendada parse d probabilidad min_score frase
              resto azar'
      | none => procesarFraseEnmendada parse d probabilidad min_score frase
          resto azar

/-! ### Concrete instances used by counterexamples and witnesses -/

/-- Two triples: the verbs share the subject lemma and nothing else. -/
def triplesC3 : List Triple :=
  [⟨"ana", "fundar", "instituto"⟩, ⟨"ana", "crear", "museo"⟩]

/-- A concrete oracle for the sentence of the C2 counterexample: the verb
token's surface form recurs earlier in the sentence inside another word. -/
def parseC2 : Analizador := fun s =>
  if s = "el casamiento casa bien" then
    [⟨"el", "el", "DET"⟩, ⟨"casamiento", "casamiento", "NOUN"⟩,
     ⟨"casa", "casar", "VERB"⟩, ⟨"bien", "bien", "ADV"⟩]
  else []

/-- A model with the single equivalence `casar ≈ unir` (score 9). -/
def jsonC2 : Json :=
  Json.objeto [("equivalencias", Json.lista
    [Json.objeto [("a", Json.cadena ("casar")), ("b", Json.cadena ("unir")),
                  ("score", Json.numero 9)]])]

/-- The model file holding `jsonC2`. -/
def archivoC2 : Archivo := some (some jsonC2)

/-- The equivalence index built from `jsonC2`. -/
def diccC2 : DiccEquiv :=
  [(("casar"), [(("unir"), 9)]), (("unir"), [(("casar"), 9)])]

/-- A concrete oracle for the C5 counterexample: two verb tokens, both with
index entries. -/
def parseC5 : Analizador := fun s =>
  if s = "maria ama corre" then
    [⟨"maria", "maria", "PROPN"⟩, ⟨"ama", "amar", "VERB"⟩,
     ⟨"corre", "correr", "VERB"⟩]
  else []

/-- A model with the equivalences `amar ≈ querer` (9) and `correr ≈ andar` (8). -/
def jsonC5 : Json :=
  Json.objeto [("equivalencias", Json.lista
    [Json.objeto [("a", Json.cadena ("amar")), ("b", Json.cadena ("querer")),
                  ("score", Json.numero 9)],
     Json.objeto [("a", Json.cadena ("correr")), ("b", Json.cadena ("andar")),
                  ("score", Json.numero 8)]])]

/-- The model file holding `jsonC5`. -/
def archivoC5 : Archivo := some (some jsonC5)

/-- The equivalence index built from `jsonC5`. -/
def diccC5 : DiccEquiv :=
  [(("amar"), [(("querer"), 9)]), (("querer"), [(("amar"), 9)]),
   (("correr"), [(("andar"), 8)]), (("andar"), [(("correr"), 8)])]

/-- A model whose `equivalencias` field is present but is not a list. -/
def jsonInvalido : Json := Json.objeto [("equivalencias", Json.numero 5)]

/-- The model file holding `jsonInvalido`. -/
def archivoInvalido : Archivo := some (some jsonInvalido)

/-! ### Counter lemmas -/

lemma cuentaDe_incr (k j : String) (m : Contador) :
    cuentaDe (incr k m) j = cuentaDe m j + (if j = k then 1 else 0) := by
  induction m with
  | nil =>
      by_cases h : k = j <;> simp [incr, cuentaDe, h, eq_comm]
  | cons kv resto ih =>
      obtain ⟨k', n⟩ := kv
      by_cases h : k' = k
      · subst h
        by_cases h2 : k' = j
        · subst h2
          simp [incr, cuentaDe]
        · have h3 : ¬(j = k') := fun hh => h2 hh.symm
          simp [incr, cuentaDe, h2, h3]
      · by_cases h2 : k' = j
        · subst h2
          have h3 : ¬(k' = k) := h
          have h4 : ¬(k = k') := fun hh => h3 hh.symm
          simp [incr, cuentaDe, h3, h4]
        · simp [incr, cuentaDe, h, h2, ih]

lemma sumaCuentas_incr (k : String) (m : Contador) :
    sumaCuentas (incr k m) = sumaCuentas m + 1 := by
  induction m with
  | nil => simp [incr, sumaCuentas]
  | cons kv resto ih =>
      obtain ⟨k', n⟩ := kv
      by_cases h : k' = k <;> simp [incr, sumaCuentas, h] <;>
        simp [sumaCuentas] at ih <;> omega

lemma claves_incr (k : String) (m : Contador) :
    claves (incr k m) =
      if k ∈ claves m then claves m else claves m ++ [k] := by
  induction m with
  | nil => simp [incr, claves]
  | cons kv resto ih =>
      obtain ⟨k', n⟩ := kv
      by_cases h : k' = k
      · subst h
        simp [incr, claves]
      · have hik : incr k ((k', n) :: resto) = (k', n) :: incr k resto := by
          simp [incr, h]
        have hcons : claves ((k', n) :: incr k resto) = k' :: claves (incr k resto) := rfl
        have hkk : (k ∈ claves ((k', n) :: resto)) ↔ k ∈ claves resto := by
          simp [claves, Ne.symm h]
        by_cases h2 : k ∈ claves resto
        · rw [hik, hcons, ih, if_pos h2, if_pos (hkk.mpr h2)]
          rfl
        · rw [hik, hcons, ih, if_neg h2, if_neg (fun hc => h2 (hkk.mp hc))]
          rfl

lemma mem_claves_incr (k j : String) (m : Contador) :
    j ∈ claves (incr k m) ↔ j ∈ claves m ∨ j = k := by
  rw [claves_incr]
  by_cases h : k ∈ claves m
  · simp only [if_pos h]
    constructor
    · exact Or.inl
    · rintro (hj | rfl)
      · exact hj
      · exact h
  · simp [if_neg h]

lemma nodup_claves_incr (k : String) (m : Contador)
    (h : (claves m).Nodup) : (claves (incr k m)).Nodup := by
  rw [claves_incr]
  by_cases hk : k ∈ claves m
  · simpa [hk] using h
  · simp [hk, List.nodup_append, h]

/-! ### Aggregation-fold lemmas -/

lemma sumaCuentas_fold_sujetos (v : String) :
    ∀ (l : List Triple) (acc : Contador),
      sumaCuentas (l.foldl
          (fun acc t => if t.verbo = v then incr t.sujeto acc else acc) acc)
        = sumaCuentas acc + (l.filter (fun t => decide (t.verbo = v))).length := by
  intro l
  induction l with
  | nil => intro acc; simp
  | cons t resto ih =>
      intro acc
      by_cases h : t.verbo = v <;>
        simp [List.foldl_cons, List.filter_cons, h, ih, sumaCuentas_incr] <;> omega

lemma sumaCuentas_fold_objetos (v : String) :
    ∀ (l : List Triple) (acc : Contador),
      sumaCuentas (l.foldl
          (fun acc t =>
            if t.verbo = v ∧ t.objeto ≠ "_" then incr t.objeto acc else acc) acc)
        = sumaCuentas acc
            + (l.filter (fun t => decide (t.verbo = v ∧ t.objeto ≠ "_"))).length := by
  intro l
  induction l with
  | nil => intro acc; simp
  | cons t resto ih =>
      intro acc
      by_cases h : t.verbo = v ∧ t.objeto ≠ "_" <;>
        simp [List.foldl_cons, List.filter_cons, h, ih, sumaCuentas_incr] <;> omega

lemma cuentaDe_fold_verbos (j : String) :
    ∀ (l : List Triple) (acc : Contador),
      cuentaDe (l.foldl (fun acc t => incr t.verbo acc) acc) j
        = cuentaDe acc j + (l.filter (fun t => decide (t.verbo = j))).length := by
  intro l
  induction l with
  | nil => intro acc; simp
  | cons t resto ih =>
      intro acc
      rw [List.foldl_cons, ih, cuentaDe_incr, List.filter_cons]
      by_cases h : t.verbo = j
      · have h2 : j = t.verbo := h.symm
        rw [if_pos h2, if_pos (by simpa using h), List.length_cons]
        omega
      · have h2 : ¬(j = t.verbo) := fun hh => h hh.symm
        rw [if_neg h2, if_neg (by simpa using h)]
        omega

lemma mem_claves_fold_sujetos (v s : String) :
    ∀ (l : List Triple) (acc : Contador),
      s ∈ claves (l.foldl
          (fun acc t => if t.verbo = v then incr t.sujeto acc else acc) acc)
        ↔ s ∈ claves acc ∨ ∃ t ∈ l, t.verbo = v ∧ t.sujeto = s := by
  intro l
  induction l with
  | nil => intro acc; simp
  | cons t resto ih =>
      intro acc
      by_cases h : t.verbo = v
      · simp only [List.foldl_cons, if_pos h, ih, mem_claves_incr, List.mem_cons]
        constructor
        · rintro ((hs | rfl) | ⟨t', ht', hv', hs'⟩)
          · exact Or.inl hs
          · exact Or.inr ⟨t, Or.inl rfl, h, rfl⟩
          · exact Or.inr ⟨t', Or.inr ht', hv', hs'⟩
        · rintro (hs | ⟨t', (rfl | ht'), hv', hs'⟩)
          · exact Or.inl (Or.inl hs)
          · exact Or.inl (Or.inr hs'.symm)
          · exact Or.inr ⟨t', ht', hv', hs'⟩
      · simp only [List.foldl_cons, if_neg h, ih, List.mem_cons]
        constructor
        · rintro (hs | ⟨t', ht', hv', hs'⟩)
          · exact Or.inl hs
          · exact Or.inr ⟨t', Or.inr ht', hv', hs'⟩
        · rintro (hs | ⟨t', (rfl | ht'), hv', hs'⟩)
          · exact Or.inl hs
          · exact absurd hv' h
          · exact Or.inr ⟨t', ht', hv', hs'⟩

lemma mem_claves_fold_objetos (v s : String) :
    ∀ (l : List Triple) (acc : Contador),
      s ∈ claves (l.foldl
          (fun acc t =>
            if t.verbo = v ∧ t.objeto ≠ "_" then incr t.objeto acc else acc) acc)
        ↔ s ∈ claves acc
            ∨ ∃ t ∈ l, (t.verbo = v ∧ t.objeto ≠ "_") ∧ t.objeto = s := by
  intro l
  induction l with
  | nil => intro acc; simp
  | cons t resto ih =>
      intro acc
      by_cases h : t.verbo = v ∧ t.objeto ≠ "_"
      · simp only [List.foldl_cons, if_pos h, ih, mem_claves_incr, List.mem_cons]
        constructor
        · rintro ((hs | rfl) | ⟨t', ht', hv', hs'⟩)
          · exact Or.inl hs
          · exact Or.inr ⟨t, Or.inl rfl, h, rfl⟩
          · exact Or.inr ⟨t', Or.inr ht', hv', hs'⟩
        · rintro (hs | ⟨t', (rfl | ht'), hv', hs'⟩)
          · exact Or.inl (Or.inl hs)
          · exact Or.inl (Or.inr hs'.symm)
          · exact Or.inr ⟨t', ht', hv', hs'⟩
      · simp only [List.foldl_cons, if_neg h, ih, List.mem_cons]
        constructor
        · rintro (hs | ⟨t', ht', hv', hs'⟩)
          · exact Or.inl hs
          · exact Or.inr ⟨t', Or.inr ht', hv', hs'⟩
        · rintro (hs | ⟨t', (rfl | ht'), hv', hs'⟩)
          · exact Or.inl hs
          · exact absurd hv' h
          · exact Or.inr ⟨t', ht', hv', hs'⟩

lemma nodup_claves_fold_sujetos (v : String) :
    ∀ (l : List Triple) (acc : Contador),
      (claves acc).Nodup →
      (claves (l.foldl
          (fun acc t => if t.verbo = v then incr t.sujeto acc else acc) acc)).Nodup := by
  intro l
  induction l with
  | nil => intro acc h; simpa using h
  | cons t resto ih =>
      intro acc h
      by_cases hv : t.verbo = v
      · simpa [List.foldl_cons, if_pos hv] using ih _ (nodup_claves_incr _ _ h)
      · simpa [List.foldl_cons, if_neg hv] using ih _ h

lemma nodup_claves_fold_objetos (v : String) :
    ∀ (l : List Triple) (acc : Contador),
      (claves acc).Nodup →
      (claves (l.foldl
          (fun acc t =>
            if t.verbo = v ∧ t.objeto ≠ "_" then incr t.objeto acc else acc) acc)).Nodup := by
  intro l
  induction l with
  | nil => intro acc h; simpa using h
  | cons t resto ih =>
      intro acc h
      by_cases hv : t.verbo = v ∧ t.objeto ≠ "_"
      · simpa [List.foldl_cons, if_pos hv] using ih _ (nodup_claves_incr _ _ h)
      · simpa [List.foldl_cons, if_neg hv] using ih _ h

lemma nodup_claves_fold_verbos :
    ∀ (l : List Triple) (acc : Contador),
      (claves acc).Nodup →
      (claves (l.foldl (fun acc t => incr t.verbo acc) acc)).Nodup := by
  intro l
  induction l with
  | nil => intro acc h; simpa using h
  | cons t resto ih =>
      intro acc h
      simpa [List.foldl_cons] using ih _ (nodup_claves_incr _ _ h)

/-! ### Bridges between the code's counters and the spec's sets -/

lemma nodup_clavesSujetos (triples : List Triple) (v : String) :
    (clavesSujetos triples v).Nodup := by
  have := nodup_claves_fold_sujetos v triples [] (by simp [claves])
  simpa [clavesSujetos, sujetosDe] using this

lemma nodup_clavesObjetos (triples : List Triple) (v : String) :
    (clavesObjetos triples v).Nodup := by
  have := nodup_claves_fold_objetos v triples [] (by simp [claves])
  simpa [clavesObjetos, objetosDe] using this

lemma nodup_verbosDe (triples : List Triple) : (verbosDe triples).Nodup := by
  have := nodup_claves_fold_verbos triples [] (by simp [claves])
  simpa [verbosDe, freqVerbos] using this

lemma mem_clavesSujetos (triples : List Triple) (v s : String) :
    s ∈ clavesSujetos triples v ↔ ∃ t ∈ triples, t.verbo = v ∧ t.sujeto = s := by
  have := mem_claves_fold_sujetos v s triples []
  simpa [clavesSujetos, sujetosDe, claves] using this

lemma mem_clavesObjetos (triples : List Triple) (v s : String) :
    s ∈ clavesObjetos triples v
      ↔ ∃ t ∈ triples, (t.verbo = v ∧ t.objeto ≠ "_") ∧ t.objeto = s := by
  have := mem_claves_fold_objetos v s triples []
  simpa [clavesObjetos, objetosDe, claves] using this

lemma toFinset_clavesSujetos (triples : List Triple) (v : String) :
    (clavesSujetos triples v).toFinset = sujetosSpec triples v := by
  ext s
  simp only [List.mem_toFinset, mem_clavesSujetos, sujetosSpec, List.mem_map,
    List.mem_filter, decide_eq_true_eq]
  constructor
  · rintro ⟨t, ht, hv, hs⟩
    exact ⟨t, ⟨ht, hv⟩, hs⟩
  · rintro ⟨t, ⟨ht, hv⟩, hs⟩
    exact ⟨t, ht, hv, hs⟩

lemma toFinset_clavesObjetos (triples : List Triple) (v : String) :
    (clavesObjetos triples v).toFinset = objetosSpec triples v := by
  ext s
  simp only [List.mem_toFinset, mem_clavesObjetos, objetosSpec, List.mem_map,
    List.mem_filter, decide_eq_true_eq]
  constructor
  · rintro ⟨t, ht, hv, hs⟩
    exact ⟨t, ⟨ht, hv⟩, hs⟩
  · rintro ⟨t, ⟨ht, hv⟩, hs⟩
    exact ⟨t, ht, hv, hs⟩

lemma length_clavesSujetos (triples : List Triple) (v : String) :
    (clavesSujetos triples v).length = (sujetosSpec triples v).card := by
  rw [← toFinset_clavesSujetos,
    List.toFinset_card_of_nodup (nodup_clavesSujetos triples v)]

lemma length_clavesObjetos (triples : List Triple) (v : String) :
    (clavesObjetos triples v).length = (objetosSpec triples v).card := by
  rw [← toFinset_clavesObjetos,
    List.toFinset_card_of_nodup (nodup_clavesObjetos triples v)]

lemma freqDe_eq_freqSpec (triples : List Triple) (v : String) :
    freqDe triples v = freqSpec triples v := by
  have := cuentaDe_fold_verbos v triples []
  simpa [freqDe, freqVerbos, freqSpec, cuentaDe] using this

lemma toFinset_interseccion (xs ys : List String) :
    (interseccion xs ys).toFinset = xs.toFinset ∩ ys.toFinset := by
  ext s
  simp [interseccion, List.mem_filter]

lemma nodup_interseccion (xs ys : List String) (h : xs.Nodup) :
    (interseccion xs ys).Nodup := h.filter _

lemma length_interseccion (xs ys : List String) (h : xs.Nodup) :
    (interseccion xs ys).length = (xs.toFinset ∩ ys.toFinset).card := by
  rw [← toFinset_interseccion,
    List.toFinset_card_of_nodup (nodup_interseccion xs ys h)]

lemma longitud_sujetosComunes (triples : List Triple) (va vb : String) :
    (sujetosComunes triples va vb).length
      = (sujetosSpec triples va ∩ sujetosSpec triples vb).card := by
  rw [sujetosComunes, length_interseccion _ _ (nodup_clavesSujetos triples va),
    toFinset_clavesSujetos, toFinset_clavesSujetos]

lemma longitud_objetosComunes (triples : List Triple) (va vb : String) :
    (objetosComunes triples va vb).length
      = (objetosSpec triples va ∩ objetosSpec triples vb).card := by
  rw [objetosComunes, length_interseccion _ _ (nodup_clavesObjetos triples va),
    toFinset_clavesObjetos, toFinset_clavesObjetos]

lemma contextosCompartidos_eq_sharedSpec (triples : List Triple) (va vb : String) :
    contextosCompartidos triples va vb = sharedSpec triples va vb := by
  rw [contextosCompartidos, sharedSpec, longitud_sujetosComunes,
    longitud_objetosComunes]

lemma totalContextos_eq_totalSpec (triples : List Triple) (v : String) :
    totalContextos triples v = totalSpec triples v := by
  rw [totalContextos, totalSpec, length_clavesSujetos, length_clavesObjetos]

lemma similitudDe_eq_jaccardSpec (triples : List Triple) (va vb : String) :
    similitudDe triples va vb = jaccardSpec triples va vb := by
  rw [similitudDe, jaccardSpec, contextosCompartidos_eq_sharedSpec,
    totalContextos_eq_totalSpec, totalContextos_eq_totalSpec]
  by_cases h : 0 < (totalSpec triples va : ℤ) + (totalSpec triples vb : ℤ)
      - (sharedSpec triples va vb : ℤ)
  · rw [if_pos h, if_pos h]
    push_cast
    ring_nf
  · rw [if_neg h, if_neg h]

lemma ratioFreq_eq_ratioSpec (triples : List Triple) (va vb : String) :
    ratioFreq triples va vb = ratioSpec triples va vb := by
  rw [ratioFreq, ratioSpec, freqDe_eq_freqSpec, freqDe_eq_freqSpec]

lemma scoreCrudo_eq_scoreSpec (triples : List Triple) (va vb : String) :
    scoreCrudo triples va vb = scoreSpec triples va vb := by
  rw [scoreCrudo, scoreSpec, similitudDe_eq_jaccardSpec, ratioFreq_eq_ratioSpec]
  ring

lemma sharedSpec_comm (triples : List Triple) (va vb : String) :
    sharedSpec triples va vb = sharedSpec triples vb va := by
  rw [sharedSpec, sharedSpec, Finset.inter_comm,
    Finset.inter_comm (objetosSpec triples va)]

lemma jaccardSpec_comm (triples : List Triple) (va vb : String) :
    jaccardSpec triples va vb = jaccardSpec triples vb va := by
  rw [jaccardSpec, jaccardSpec, sharedSpec_comm,
    show (totalSpec triples va : ℤ) + (totalSpec triples vb : ℤ)
        = (totalSpec triples vb : ℤ) + (totalSpec triples va : ℤ) from add_comm _ _,
    show (totalSpec triples va : ℚ) + (totalSpec triples vb : ℚ)
        = (totalSpec triples vb : ℚ) + (totalSpec triples va : ℚ) from add_comm _ _]

lemma ratioSpec_comm (triples : List Triple) (va vb : String) :
    ratioSpec triples va vb = ratioSpec triples vb va := by
  rw [ratioSpec, ratioSpec, max_comm, min_comm,
    max_comm ((freqSpec triples va : ℚ)) ((freqSpec triples vb : ℚ))]

lemma scoreSpec_comm (triples : List Triple) (va vb : String) :
    scoreSpec triples va vb = scoreSpec triples vb va := by
  rw [scoreSpec, scoreSpec, jaccardSpec_comm, ratioSpec_comm]

/-! ### Rounding lemmas -/

lemma abs_redondeoMedioPar_sub (q : ℚ) :
    |(redondeoMedioPar q : ℚ) - q| ≤ 1/2 := by
  have h0 : (⌊q⌋ : ℚ) ≤ q := Int.floor_le q
  have h1 : q < ⌊q⌋ + 1 := Int.lt_floor_add_one q
  rw [redondeoMedioPar]
  split_ifs with ha hb hc
  · rw [abs_le]
    constructor <;> linarith
  · push_cast
    rw [abs_le]
    constructor <;> linarith
  · have hmedio : q - ⌊q⌋ = 1/2 := le_antisymm (not_lt.mp hb) (not_lt.mp ha)
    rw [abs_le]
    constructor <;> linarith
  · have hmedio : q - ⌊q⌋ = 1/2 := le_antisymm (not_lt.mp hb) (not_lt.mp ha)
    push_cast
    rw [abs_le]
    constructor <;> linarith

lemma abs_round3_sub (q : ℚ) : |round3 q - q| ≤ 1/2000 := by
  have h := abs_redondeoMedioPar_sub (q * 1000)
  have hrw : round3 q - q = ((redondeoMedioPar (q * 1000) : ℚ) - q * 1000) / 1000 := by
    rw [round3]
    ring
  rw [hrw, abs_div]
  have h1000 : |(1000 : ℚ)| = 1000 := by norm_num
  rw [h1000]
  rw [div_le_iff₀ (by norm_num : (0:ℚ) < 1000)]
  linarith

/-! ### Inversion lemmas for the builder -/

lemma evaluarPar_some (triples : List Triple) (umbral : ℚ) (va vb : String)
    (e : Equivalencia) (h : evaluarPar triples umbral va vb = some e) :
    e.a = va ∧ e.b = vb
    ∧ e.score = round3 (scoreCrudo triples va vb)
    ∧ umbral ≤ scoreCrudo triples va vb
    ∧ e.contextos_compartidos = contextosCompartidos triples va vb
    ∧ e.freq_a = freqDe triples va ∧ e.freq_b = freqDe triples vb
    ∧ 0 < contextosCompartidos triples va vb := by
  rw [evaluarPar] at h
  by_cases h1 : ((sujetosComunes triples va vb).isEmpty
      && (objetosComunes triples va vb).isEmpty) = true
  · rw [if_pos h1] at h
    cases h
  · rw [if_neg h1] at h
    by_cases h2 : 0 < totalContextos triples va ∧ 0 < totalContextos triples vb
    · rw [if_pos h2] at h
      by_cases h3 : umbral ≤ scoreCrudo triples va vb
      · rw [if_pos h3] at h
        obtain rfl := Option.some.inj h
        refine ⟨rfl, rfl, rfl, h3, rfl, rfl, rfl, ?_⟩
        rw [contextosCompartidos]
        by_cases hs : (sujetosComunes triples va vb).isEmpty = true
        · have ho : ¬((objetosComunes triples va vb).isEmpty = true) := by
            intro hc
            refine h1 ?_
            rw [hs, hc]
            rfl
          have hlen : (objetosComunes triples va vb).length ≠ 0 := by
            simpa [List.isEmpty_iff, List.length_eq_zero] using ho
          omega
        · have hlen : (sujetosComunes triples va vb).length ≠ 0 := by
            simpa [List.isEmpty_iff, List.length_eq_zero] using hs
          omega
      · rw [if_neg h3] at h
        cases h
    · rw [if_neg h2] at h
      cases h

lemma evaluarPar_none_de_shared_cero (triples : List Triple) (umbral : ℚ)
    (va vb : String) (h : contextosCompartidos triples va vb = 0) :
    evaluarPar triples umbral va vb = none := by
  rw [contextosCompartidos] at h
  have hs : (sujetosComunes triples va vb).isEmpty = true := by
    rw [List.isEmpty_iff, ← List.length_eq_zero]
    omega
  have ho : (objetosComunes triples va vb).isEmpty = true := by
    rw [List.isEmpty_iff, ← List.length_eq_zero]
    omega
  have hcond : ((sujetosComunes triples va vb).isEmpty
      && (objetosComunes triples va vb).isEmpty) = true := by
    rw [hs, ho]
    rfl
  rw [evaluarPar, if_pos hcond]

lemma mem_calcular (triples : List Triple) (umbral : ℚ) (e : Equivalencia)
    (h : e ∈ calcular_similitudes_verbos triples umbral) :
    ∃ p ∈ paresOrdenados (verbosDe triples),
      p.1 ≠ p.2 ∧ evaluarPar triples umbral p.1 p.2 = some e := by
  rw [calcular_similitudes_verbos, List.mem_mergeSort, List.mem_filterMap] at h
  obtain ⟨p, hp, hf⟩ := h
  by_cases hpp : p.1 = p.2
  · rw [if_pos hpp] at hf
    cases hf
  · rw [if_neg hpp] at hf
    exact ⟨p, hp, hpp, hf⟩

lemma mem_paresOrdenados (l : List String) (p : String × String)
    (h : p ∈ paresOrdenados l) : p.1 ∈ l ∧ p.2 ∈ l := by
  induction l with
  | nil => cases h
  | cons a resto ih =>
      rw [paresOrdenados, List.mem_append] at h
      rcases h with h | h
      · obtain ⟨b, hb, rfl⟩ := List.mem_map.mp h
        exact ⟨List.mem_cons_self a resto, List.mem_cons_of_mem a hb⟩
      · obtain ⟨h1, h2⟩ := ih h
        exact ⟨List.mem_cons_of_mem a h1, List.mem_cons_of_mem a h2⟩

/-- Pairs visited by the builder's double loop over a duplicate-free verb list
are pairwise distinct as unordered pairs. -/
lemma pairwise_paresOrdenados (l : List String) (hl : l.Nodup) :
    List.Pairwise
      (fun p q : String × String =>
        ¬(q.1 = p.1 ∧ q.2 = p.2) ∧ ¬(q.1 = p.2 ∧ q.2 = p.1))
      (paresOrdenados l) := by
  induction l with
  | nil => exact List.Pairwise.nil
  | cons a resto ih =>
      obtain ⟨ha, hresto⟩ := List.nodup_cons.mp hl
      rw [paresOrdenados, List.pairwise_append]
      refine ⟨?_, ih hresto, ?_⟩
      · rw [List.pairwise_map]
        have hmem : List.Pairwise
            (fun b1 b2 => b1 ≠ b2 ∧ b1 ∈ resto ∧ b2 ∈ resto) resto := by
          refine List.Pairwise.imp_of_mem ?_ hresto
          intro b1 b2 hb1 hb2 hne
          exact ⟨hne, hb1, hb2⟩
        refine hmem.imp ?_
        rintro b1 b2 ⟨hne, hb1, hb2⟩
        constructor
        · rintro ⟨-, h22⟩
          have hb : b2 = b1 := h22
          exact hne hb.symm
        · rintro ⟨h1, -⟩
          have hab : a = b1 := h1
          exact ha (hab ▸ hb1)
      · rintro p hp q hq
        obtain ⟨b, hb, rfl⟩ := List.mem_map.mp hp
        obtain ⟨hq1, hq2⟩ := mem_paresOrdenados resto q hq
        constructor
        · rintro ⟨h1, -⟩
          have hqa : q.1 = a := h1
          exact ha (hqa ▸ hq1)
        · rintro ⟨-, h2⟩
          have hqa : q.2 = a := h2
          exact ha (hqa ▸ hq2)

/-- Pairwise transfer along `filterMap`. -/
lemma pairwise_filterMap_de {α β : Type} {R : α → α → Prop} {S : β → β → Prop}
    (f : α → Option β)
    (hf : ∀ a b x y, R a b → f a = some x → f b = some y → S x y) :
    ∀ {l : List α}, l.Pairwise R → (l.filterMap f).Pairwise S := by
  intro l hl
  induction hl with
  | nil => simp
  | @cons a l ha hl ih =>
      rw [List.filterMap_cons]
      cases hfa : f a with
      | none => exact ih
      | some x =>
          refine List.Pairwise.cons ?_ ih
          intro y hy
          obtain ⟨b, hb, hfb⟩ := List.mem_filterMap.mp hy
          exact hf a b x y (ha b hb) hfa hfb

/-! ### Concrete evaluation of the builder on `triplesC3`

Rational arithmetic does not reduce inside the kernel, so the concrete model
built from `triplesC3` is evaluated once here by rewriting. -/

lemma scoreCrudo_triplesC3 :
    scoreCrudo triplesC3 ("fundar") ("crear") = 8/15 := by
  have h1 : contextosCompartidos triplesC3 ("fundar") ("crear") = 1 := by decide
  have h2 : totalContextos triplesC3 ("fundar") = 2 := by decide
  have h3 : totalContextos triplesC3 ("crear") = 2 := by decide
  have h4 : freqDe triplesC3 ("fundar") = 1 := by decide
  have h5 : freqDe triplesC3 ("crear") = 1 := by decide
  have hsim : similitudDe triplesC3 ("fundar") ("crear") = 1/3 := by
    simp only [similitudDe, h1, h2, h3]
    norm_num
  have hratio : ratioFreq triplesC3 ("fundar") ("crear") = 1 := by
    simp only [ratioFreq, h4, h5]
    norm_num
  rw [scoreCrudo, hsim, hratio]
  norm_num

lemma round3_de_8_15 : round3 (8/15 : ℚ) = 533/1000 := by
  have hprod : (8/15 : ℚ) * 1000 = 1600/3 := by norm_num
  have hfloor : (⌊(1600/3 : ℚ)⌋ : ℤ) = 533 := by
    rw [Int.floor_eq_iff]
    norm_num
  have hr : redondeoMedioPar ((8/15 : ℚ) * 1000) = 533 := by
    rw [redondeoMedioPar, hprod, hfloor]
    rw [if_pos (by norm_num)]
  rw [round3, hr]
  norm_num

lemma evaluarPar_triplesC3 (u : ℚ) (hu : u ≤ 8/15) :
    evaluarPar triplesC3 u ("fundar") ("crear")
      = some ⟨("fundar"), ("crear"), 533/1000, 1, 1, 1⟩ := by
  have hne : ¬(((sujetosComunes triplesC3 ("fundar") ("crear")).isEmpty
      && (objetosComunes triplesC3 ("fundar") ("crear")).isEmpty) = true) := by
    decide
  have htot : 0 < totalContextos triplesC3 ("fundar")
      ∧ 0 < totalContextos triplesC3 ("crear") := by decide
  have h1 : contextosCompartidos triplesC3 ("fundar") ("crear") = 1 := by decide
  have h4 : freqDe triplesC3 ("fundar") = 1 := by decide
  have h5 : freqDe triplesC3 ("crear") = 1 := by decide
  rw [evaluarPar, if_neg hne, if_pos htot, scoreCrudo_triplesC3,
    if_pos hu, round3_de_8_15, h1, h4, h5]

lemma calcular_triplesC3 (u : ℚ) (hu : u ≤ 8/15) :
    calcular_similitudes_verbos triplesC3 u
      = [⟨("fundar"), ("crear"), 533/1000, 1, 1, 1⟩] := by
  have hv : paresOrdenados (verbosDe triplesC3) = [(("fundar"), ("crear"))] := by
    decide
  have hf : (fun p : String × String =>
        if p.1 = p.2 then none else evaluarPar triplesC3 u p.1 p.2)
          ((("fundar"), ("crear")))
        = some ⟨("fundar"), ("crear"), 533/1000, 1, 1, 1⟩ := by
    show (if (("fundar") : String) = ("crear") then none
        else evaluarPar triplesC3 u ("fundar") ("crear")) = _
    rw [if_neg (by decide), evaluarPar_triplesC3 u hu]
  have hfm := @List.filterMap_cons_some (String × String) Equivalencia
    (fun p => if p.1 = p.2 then none else evaluarPar triplesC3 u p.1 p.2)
    ((("fundar"), ("crear"))) [] ⟨("fundar"), ("crear"), 533/1000, 1, 1, 1⟩ hf
  rw [calcular_similitudes_verbos, hv, hfm, List.filterMap_nil,
    List.mergeSort_singleton]

/-! ### Structural lemmas for the applier -/

lemma aplicar_sin_modelo (archivo : Archivo) (parse : Analizador)
    (frases : List String) (p ms : ℚ) (mx : Option Nat) (azar : List ℚ)
    (h : cargar_modelo archivo = none) :
    aplicar_DIRT archivo parse frases p ms mx azar = .ok frases := by
  unfold aplicar_DIRT
  rw [h]

lemma aplicar_error_construir (archivo : Archivo) (parse : Analizador)
    (frases : List String) (p ms : ℚ) (mx : Option Nat) (azar : List ℚ)
    (modelo : Json) (h1 : cargar_modelo archivo = some modelo)
    (h2 : construir_diccionario_equivalencias modelo = .error ()) :
    aplicar_DIRT archivo parse frases p ms mx azar = .error () := by
  unfold aplicar_DIRT
  simp only [h1, h2]

lemma aplicar_dicc_vacio (archivo : Archivo) (parse : Analizador)
    (frases : List String) (p ms : ℚ) (mx : Option Nat) (azar : List ℚ)
    (modelo : Json) (h1 : cargar_modelo archivo = some modelo)
    (h2 : construir_diccionario_equivalencias modelo = .ok []) :
    aplicar_DIRT archivo parse frases p ms mx azar = .ok frases := by
  unfold aplicar_DIRT
  simp only [h1, h2, List.isEmpty_nil, if_true]

lemma aplicar_dicc (archivo : Archivo) (parse : Analizador)
    (frases : List String) (p ms : ℚ) (mx : Option Nat) (azar : List ℚ)
    (modelo : Json) (d : DiccEquiv)
    (h1 : cargar_modelo archivo = some modelo)
    (h2 : construir_diccionario_equivalencias modelo = .ok d)
    (h3 : d.isEmpty = false) :
    aplicar_DIRT archivo parse frases p ms mx azar
      = .ok (aplicarBucle parse d p ms mx frases azar 0) := by
  unfold aplicar_DIRT
  simp only [h1, h2, h3]
  rfl

lemma aplicarSegunClaim_dicc (archivo : Archivo) (parse : Analizador)
    (frases : List String) (p ms : ℚ) (mx : Option Nat) (azar : List ℚ)
    (modelo : Json) (d : DiccEquiv)
    (h1 : cargar_modelo archivo = some modelo)
    (h2 : construir_diccionario_equivalencias modelo = .ok d)
    (h3 : d.isEmpty = false) :
    aplicar_DIRT_segunClaim archivo parse frases p ms mx azar
      = .ok (aplicarBucleSegunClaim parse d p ms mx frases azar 0) := by
  unfold aplicar_DIRT_segunClaim
  simp only [h1, h2, h3]
  rfl

/-! ### Concrete evaluation of the index builder -/

lemma construir_jsonC2 :
    construir_diccionario_equivalencias jsonC2 = .ok diccC2 := by
  have hreg : extraerRegistros
      [Json.objeto [("a", Json.cadena ("casar")), ("b", Json.cadena ("unir")),
                    ("score", Json.numero 9)]]
        = .ok [(("casar"), ("unir"), 9)] := rfl
  simp [construir_diccionario_equivalencias, jsonC2, buscarCampo,
    hreg, agregarEquiv, List.mergeSort_singleton, diccC2]

lemma construir_jsonC5 :
    construir_diccionario_equivalencias jsonC5 = .ok diccC5 := by
  have hreg : extraerRegistros
      [Json.objeto [("a", Json.cadena ("amar")), ("b", Json.cadena ("querer")),
                    ("score", Json.numero 9)],
       Json.objeto [("a", Json.cadena ("correr")), ("b", Json.cadena ("andar")),
                    ("score", Json.numero 8)]]
        = .ok [(("amar"), ("querer"), 9), (("correr"), ("andar"), 8)] := rfl
  simp [construir_diccionario_equivalencias, jsonC5, buscarCampo,
    hreg, agregarEquiv, List.mergeSort_singleton, diccC5]

/-! ### Claim theorems -/

/-- C4 (counterexample): a file whose `equivalencias` field is present but is
a number — not a list — is accepted by `cargar_modelo` (which only tests key
presence), not treated as absent. -/
theorem C4_contraejemplo :
    cargar_modelo archivoInvalido = some jsonInvalido
    ∧ buscarCampo [(("equivalencias"), Json.numero 5)] ("equivalencias")
        = some (Json.numero 5)
    ∧ (∀ xs, Json.numero 5 ≠ Json.lista xs) := by
  refine ⟨rfl, rfl, ?_⟩
  intro xs h
  cases h

/-- C4 (amended): `cargar_modelo` returns the absent sentinel when the file
does not exist or is unparseable; on a parsed value it only checks that the
membership test `"equivalencias" in modelo` succeeds with `True` (it does not
check that the field is a list), returning the value then and the sentinel in
every other case; it never raises (it is a total function into `Option`). -/
theorem C4_enmendada (archivo : Archivo) :
    (archivo = none → cargar_modelo archivo = none)
    ∧ (archivo = some none → cargar_modelo archivo = none)
    ∧ (∀ j, archivo = some (some j) →
        (contieneClave j = .ok true → cargar_modelo archivo = some j)
        ∧ (contieneClave j ≠ .ok true → cargar_modelo archivo = none)) := by
  refine ⟨?_, ?_, ?_⟩
  · rintro rfl
    rfl
  · rintro rfl
    rfl
  · rintro j rfl
    constructor
    · intro hc
      rw [cargar_modelo, hc]
    · intro hc
      rw [cargar_modelo]
      cases hcc : contieneClave j with
      | error e => rfl
      | ok b =>
          cases b with
          | false => rfl
          | true => exact absurd hcc hc

/-- C4 (witness): the amended loader characterisation at a concrete absent
file and at a concrete valid file. -/
theorem C4_testigo :
    cargar_modelo (none : Archivo) = none
    ∧ cargar_modelo archivoC2 = some jsonC2 :=
  ⟨(C4_enmendada none).1 rfl,
   ((C4_enmendada archivoC2).2.2 jsonC2 rfl).1 rfl⟩

/-- C6 (counterexample): on a file that fails the spec's structural
validation — `equivalencias` present but a number, hence not a list and not
even iterable — the applier raises (propagates a `TypeError`) instead of
returning the input unchanged. -/
theorem C6_contraejemplo :
    aplicar_DIRT archivoInvalido (fun _ => []) [("hola")] 1 2 none []
        = .error ()
    ∧ (∀ xs, Json.numero 5 ≠ Json.lista xs)
    ∧ aplicar_DIRT archivoInvalido (fun _ => []) [("hola")] 1 2 none []
        ≠ .ok [("hola")] := by
  have herr : aplicar_DIRT archivoInvalido (fun _ => []) [("hola")] 1 2 none []
      = .error () :=
    aplicar_error_construir _ _ _ _ _ _ _ jsonInvalido rfl rfl
  refine ⟨herr, ?_, ?_⟩
  · intro xs h
    cases h
  · rw [herr]
    intro h
    cases h

/-- C6 (amended): the applier returns the input unchanged, raising nothing,
whenever the loader yields the absent sentinel (file missing, unparseable, or
failing the loader's own key-presence check) and whenever the model loads and
produces an empty equivalence index — which covers zero equivalence records
and also the degenerate iterables: an `equivalencias` value that is the empty
string or the empty object builds the empty index (last two clauses). -/
theorem C6_enmendada (archivo : Archivo) (parse : Analizador)
    (frases : List String) (p ms : ℚ) (mx : Option Nat) (azar : List ℚ) :
    (cargar_modelo archivo = none →
      aplicar_DIRT archivo parse frases p ms mx azar = .ok frases)
    ∧ (∀ modelo, cargar_modelo archivo = some modelo →
        construir_diccionario_equivalencias modelo = .ok [] →
        aplicar_DIRT archivo parse frases p ms mx azar = .ok frases)
    ∧ (∀ campos, buscarCampo campos ("equivalencias") = some (Json.cadena ("")) →
        construir_diccionario_equivalencias (Json.objeto campos) = .ok [])
    ∧ (∀ campos, buscarCampo campos ("equivalencias") = some (Json.objeto []) →
        construir_diccionario_equivalencias (Json.objeto campos) = .ok []) := by
  refine ⟨?_, ?_, ?_, ?_⟩
  · intro h
    exact aplicar_sin_modelo _ _ _ _ _ _ _ h
  · intro modelo h1 h2
    exact aplicar_dicc_vacio _ _ _ _ _ _ _ _ h1 h2
  · intro campos h
    simp only [construir_diccionario_equivalencias, h, Option.getD_some]
    rfl
  · intro campos h
    simp only [construir_diccionario_equivalencias, h, Option.getD_some]
    rfl

/-- C6 (witness): passthrough on an absent model file, on a model with an
empty record list, and on models whose `equivalencias` value is the empty
string or the empty object. -/
theorem C6_testigo :
    aplicar_DIRT none (fun _ => []) [("hola")] 1 2 none [] = .ok [("hola")]
    ∧ aplicar_DIRT
        (some (some (Json.objeto [(("equivalencias"), Json.lista [])])))
        (fun _ => []) [("hola")] 1 2 none [] = .ok [("hola")]
    ∧ aplicar_DIRT
        (some (some (Json.objeto [(("equivalencias"), Json.cadena (""))])))
        (fun _ => []) [("hola")] 1 2 none [] = .ok [("hola")]
    ∧ aplicar_DIRT
        (some (some (Json.objeto [(("equivalencias"), Json.objeto [])])))
        (fun _ => []) [("hola")] 1 2 none [] = .ok [("hola")] := by
  have h1 := C6_enmendada none (fun _ => []) [("hola")] 1 2 none []
  have h2 := C6_enmendada
    (some (some (Json.objeto [(("equivalencias"), Json.lista [])])))
    (fun _ => []) [("hola")] 1 2 none []
  have h3 := C6_enmendada
    (some (some (Json.objeto [(("equivalencias"), Json.cadena (""))])))
    (fun _ => []) [("hola")] 1 2 none []
  have h4 := C6_enmendada
    (some (some (Json.objeto [(("equivalencias"), Json.objeto [])])))
    (fun _ => []) [("hola")] 1 2 none []
  exact ⟨h1.1 rfl,
    h2.2.1 (Json.objeto [(("equivalencias"), Json.lista [])]) rfl rfl,
    h3.2.1 (Json.objeto [(("equivalencias"), Json.cadena (""))]) rfl
      (h3.2.2.1 [(("equivalencias"), Json.cadena (""))] rfl),
    h4.2.1 (Json.objeto [(("equivalencias"), Json.objeto [])]) rfl
      (h4.2.2.2 [(("equivalencias"), Json.objeto [])] rfl)⟩

/-- Whatever `sustituir_verbo_en_frase` returns is the sentence itself or the
sentence with the first occurrence of a verb token's surface form replaced. -/
lemma sustituir_caracterizado (parse : Analizador) (frase v n : String) :
    sustituir_verbo_en_frase parse frase v n = frase
    ∨ ∃ t ∈ parse frase, t.pos = "VERB"
        ∧ sustituir_verbo_en_frase parse frase v n
            = reemplazarPrimera frase t.texto n := by
  cases hf : (parse frase).find?
      (fun t => enMinusculas t.lema = enMinusculas v && t.pos = "VERB") with
  | none =>
      left
      rw [sustituir_verbo_en_frase, hf]
  | some t =>
      right
      refine ⟨t, List.mem_of_find?_eq_some hf, ?_, ?_⟩
      · have hp := List.find?_some hf
        have hp2 := (Bool.and_eq_true_iff.mp hp).2
        exact of_decide_eq_true hp2
      · rw [sustituir_verbo_en_frase, hf]

/-- The sentence produced by the token scan is the input sentence or a
single-verb substitution of it. -/
lemma buscar_resultado (parse : Analizador) (d : DiccEquiv) (p ms : ℚ)
    (frase : String) :
    ∀ (tokens : List Token) (azar : List ℚ),
      (buscarYSustituir parse d p ms frase tokens azar).1 = frase
      ∨ ∃ v n, (buscarYSustituir parse d p ms frase tokens azar).1
          = sustituir_verbo_en_frase parse frase v n := by
  intro tokens
  induction tokens with
  | nil =>
      intro azar
      left
      rfl
  | cons t resto ih =>
      intro azar
      rcases hza : sacarAzar azar with ⟨r, azar'⟩
      rw [buscarYSustituir]
      by_cases hpos : t.pos = "VERB"
      · simp only [if_pos hpos]
        cases hbe : buscarEquiv d (enMinusculas t.lema) with
        | none =>
            exact ih azar
        | some entradas =>
            simp only [hza]
            by_cases hr : r < p
            · simp only [if_pos hr]
              cases hfil : entradas.filter (fun e => decide (ms ≤ e.2)) with
              | nil =>
                  simp only [hfil]
                  exact ih azar'
              | cons nuevo rest =>
                  simp only [hfil]
                  right
                  exact ⟨enMinusculas t.lema, nuevo.1, rfl⟩
            · simp only [if_neg hr]
              exact ih azar'
      · simp only [if_neg hpos]
        exact ih azar

/-- Same, refined: the substitution replaces the first occurrence of the
surface form of some `VERB` token of the sentence. -/
lemma buscar_resultado_verbo (parse : Analizador) (d : DiccEquiv) (p ms : ℚ)
    (frase : String) (tokens : List Token) (azar : List ℚ) :
    (buscarYSustituir parse d p ms frase tokens azar).1 = frase
    ∨ ∃ t ∈ parse frase, t.pos = "VERB" ∧ ∃ n,
        (buscarYSustituir parse d p ms frase tokens azar).1
          = reemplazarPrimera frase t.texto n := by
  rcases buscar_resultado parse d p ms frase tokens azar with h | ⟨v, n, h⟩
  · exact Or.inl h
  · rcases sustituir_caracterizado parse frase v n with h2 | ⟨t, ht, hpos, h2⟩
    · left
      rw [h, h2]
    · right
      exact ⟨t, ht, hpos, n, h.trans h2⟩

/-- Pointwise transfer of a per-sentence property through the sentence loop. -/
lemma aplicarBucle_punto_a_punto (parse : Analizador) (d : DiccEquiv)
    (p ms : ℚ) (mx : Option Nat) (P : String → String → Prop)
    (hrefl : ∀ f, P f f)
    (hbus : ∀ frase azar,
      P frase (buscarYSustituir parse d p ms frase (parse frase) azar).1) :
    ∀ (frases : List String) (azar : List ℚ) (hechas : Nat),
      List.Forall₂ P frases (aplicarBucle parse d p ms mx frases azar hechas) := by
  intro frases
  induction frases with
  | nil =>
      intro azar hechas
      exact List.Forall₂.nil
  | cons f resto ih =>
      intro azar hechas
      rw [aplicarBucle]
      by_cases hb : presupuestoAgotado mx hechas = true
      · rw [if_pos hb]
        exact List.Forall₂.cons (hrefl f) (ih azar hechas)
      · rw [if_neg hb]
        exact List.Forall₂.cons (hbus f azar) (ih _ _)

/-- Case analysis of a successful run of the applier. -/
lemma aplicar_ok_casos (archivo : Archivo) (parse : Analizador)
    (frases : List String) (p ms : ℚ) (mx : Option Nat) (azar : List ℚ)
    (out : List String)
    (h : aplicar_DIRT archivo parse frases p ms mx azar = .ok out) :
    out = frases
    ∨ ∃ modelo d, cargar_modelo archivo = some modelo
        ∧ construir_diccionario_equivalencias modelo = .ok d
        ∧ out = aplicarBucle parse d p ms mx frases azar 0 := by
  unfold aplicar_DIRT at h
  cases hc : cargar_modelo archivo with
  | none =>
      simp only [hc] at h
      exact Or.inl (Except.ok.inj h).symm
  | some modelo =>
      simp only [hc] at h
      cases hcon : construir_diccionario_equivalencias modelo with
      | error e =>
          simp only [hcon] at h
          cases h
      | ok d =>
          simp only [hcon] at h
          by_cases hie : d.isEmpty = true
          · rw [if_pos hie] at h
            exact Or.inl (Except.ok.inj h).symm
          · rw [if_neg hie] at h
            exact Or.inr ⟨modelo, d, rfl, hcon, (Except.ok.inj h).symm⟩

/-- C7: a successful run of the applier returns exactly as many sentences as
it received, and the i-th output sentence is the i-th input sentence, either
unchanged or rewritten by a single verb substitution — no reordering,
dropping or insertion. -/
theorem C7_longitud_orden (archivo : Archivo) (parse : Analizador)
    (frases : List String) (p ms : ℚ) (mx : Option Nat) (azar : List ℚ)
    (out : List String)
    (h : aplicar_DIRT archivo parse frases p ms mx azar = .ok out) :
    out.length = frases.length
    ∧ List.Forall₂ (fun fin fout => fout = fin
        ∨ ∃ v n, fout = sustituir_verbo_en_frase parse fin v n) frases out := by
  have hC : List.Forall₂ (fun fin fout => fout = fin
      ∨ ∃ v n, fout = sustituir_verbo_en_frase parse fin v n) frases out := by
    rcases aplicar_ok_casos archivo parse frases p ms mx azar out h with
      rfl | ⟨modelo, d, hm, hd, rfl⟩
    · exact List.forall₂_same.mpr (fun x _ => Or.inl rfl)
    · exact aplicarBucle_punto_a_punto parse d p ms mx _
        (fun f => Or.inl rfl)
        (fun frase az => buscar_resultado parse d p ms frase (parse frase) az)
        frases azar 0
  exact ⟨hC.length_eq.symm, hC⟩

/-- C7 (witness): the invariant applied to a run with no model file. -/
theorem C7_testigo :
    (["hola"] : List String).length = (["hola"] : List String).length
    ∧ List.Forall₂ (fun fin fout => fout = fin
        ∨ ∃ v n, fout = sustituir_verbo_en_frase (fun _ => ([] : List Token)) fin v n)
        [("hola")] [("hola")] :=
  C7_longitud_orden none (fun _ => []) [("hola")] 1 2 none [] [("hola")] rfl

/-- C2 (counterexample): a concrete run in which the applier rewrites the
word `casamiento` — a noun token — because the verb token's surface form
`casa` first occurs inside it; the sentence's tokens are exactly its
whitespace-separated words, yet the changed word is not a verb token. -/
theorem C2_contraejemplo :
    aplicar_DIRT archivoC2 parseC2 [("el casamiento casa bien")] 1 2 none [0]
        = .ok [("el unirmiento casa bien")]
    ∧ ("el casamiento casa bien")
        = String.intercalate (" ")
            ((parseC2 ("el casamiento casa bien")).map Token.texto)
    ∧ difiereSoloEnVerbos parseC2 ("el casamiento casa bien")
        ("el unirmiento casa bien") = false := by
  have h1 := aplicar_dicc archivoC2 parseC2 [("el casamiento casa bien")] 1 2
    none [0] jsonC2 diccC2 rfl construir_jsonC2 rfl
  refine ⟨?_, by decide, by decide⟩
  rw [h1]
  rfl

/-- C2 (amended): each output sentence of a successful run equals its input
sentence or arises from it by one replacement of the first substring
occurrence of the surface form of one of its `VERB` tokens; that occurrence
need not be the token itself, so the textual change can fall inside a
different word. -/
theorem C2_enmendada (archivo : Archivo) (parse : Analizador)
    (frases : List String) (p ms : ℚ) (mx : Option Nat) (azar : List ℚ)
    (out : List String)
    (h : aplicar_DIRT archivo parse frases p ms mx azar = .ok out) :
    List.Forall₂ (fun fin fout => fout = fin
        ∨ ∃ t ∈ parse fin, t.pos = "VERB"
            ∧ ∃ n, fout = reemplazarPrimera fin t.texto n) frases out := by
  rcases aplicar_ok_casos archivo parse frases p ms mx azar out h with
    rfl | ⟨modelo, d, hm, hd, rfl⟩
  · exact List.forall₂_same.mpr (fun x _ => Or.inl rfl)
  · exact aplicarBucle_punto_a_punto parse d p ms mx _
      (fun f => Or.inl rfl)
      (fun frase az => buscar_resultado_verbo parse d p ms frase (parse frase) az)
      frases azar 0

/-- A successful dictionary lookup returns an entry of the dictionary. -/
lemma buscarEquiv_mem (d : DiccEquiv) (k : String) (vs : List (String × ℚ))
    (h : buscarEquiv d k = some vs) : (k, vs) ∈ d := by
  induction d with
  | nil => cases h
  | cons kv resto ih =>
      obtain ⟨k', vs'⟩ := kv
      rw [buscarEquiv] at h
      by_cases hk : k' = k
      · rw [if_pos hk] at h
        obtain rfl := Option.some.inj h
        subst hk
        exact List.mem_cons_self _ _
      · rw [if_neg hk] at h
        exact List.mem_cons_of_mem _ (ih h)

/-- Every entry list in an index built by
`construir_diccionario_equivalencias` is sorted by score descending. -/
lemma construir_listas_ordenadas (modelo : Json) (d : DiccEquiv)
    (hd : construir_diccionario_equivalencias modelo = .ok d) :
    ∀ kv ∈ d, List.Pairwise (fun x y : String × ℚ => y.2 ≤ x.2) kv.2 := by
  intro kv hkv
  cases modelo with
  | objeto campos =>
      simp only [construir_diccionario_equivalencias] at hd
      cases hget : (buscarCampo campos ("equivalencias")).getD (Json.lista []) with
      | lista xs =>
          simp only [hget] at hd
          cases hreg : extraerRegistros xs with
          | error e =>
              simp only [hreg] at hd
              cases hd
          | ok registros =>
              simp only [hreg] at hd
              obtain rfl := (Except.ok.inj hd).symm
              obtain ⟨kv0, hkv0, rfl⟩ := List.mem_map.mp hkv
              have htrans : ∀ (a b c : String × ℚ),
                  (decide (b.2 ≤ a.2)) = true → (decide (c.2 ≤ b.2)) = true →
                  (decide (c.2 ≤ a.2)) = true := by
                intro a b c h1 h2
                rw [decide_eq_true_iff] at h1 h2 ⊢
                exact le_trans h2 h1
              have htotal : ∀ (a b : String × ℚ),
                  ((decide (b.2 ≤ a.2)) || (decide (a.2 ≤ b.2))) = true := by
                intro a b
                rcases le_total b.2 a.2 with h | h
                · simp [h]
                · simp [h]
              have hs := List.sorted_mergeSort htrans htotal kv0.2
              exact hs.imp (fun hab => of_decide_eq_true hab)
      | nulo =>
          simp only [hget] at hd
          cases hd
      | booleano b =>
          simp only [hget] at hd
          cases hd
      | numero q =>
          simp only [hget] at hd
          cases hd
      | cadena s =>
          simp only [hget] at hd
          by_cases hs : s.data.isEmpty = true
          · rw [if_pos hs] at hd
            obtain rfl := (Except.ok.inj hd).symm
            cases hkv
          · rw [if_neg hs] at hd
            cases hd
      | objeto campos2 =>
          simp only [hget] at hd
          by_cases hs : campos2.isEmpty = true
          · rw [if_pos hs] at hd
            obtain rfl := (Except.ok.inj hd).symm
            cases hkv
          · rw [if_neg hs] at hd
            cases hd
  | nulo =>
      cases hd
  | booleano b =>
      cases hd
  | numero q =>
      cases hd
  | cadena s =>
      cases hd
  | lista xs =>
      cases hd

/-- On a score-descending list, the first maximal entry is the head. -/
lemma mejor_de_ordenada (l : List (String × ℚ))
    (h : List.Pairwise (fun x y : String × ℚ => y.2 ≤ x.2) l) :
    mejorElegible l = l.head? := by
  cases l with
  | nil => rfl
  | cons e resto =>
      rw [mejorElegible, List.find?_cons]
      have hall : (e :: resto).all (fun e2 => decide (e2.2 ≤ e.2)) = true := by
        rw [List.all_eq_true]
        intro x hx
        rcases List.mem_cons.mp hx with rfl | hx'
        · simp
        · exact decide_eq_true ((List.pairwise_cons.mp h).1 x hx')
      rw [hall]
      rfl

/-- C5 (counterexample): a sentence with two verb tokens, both with index
entries.  The claim's one-draw-per-sentence reading leaves the sentence
unchanged after a failed first draw (one value consumed); the code draws
again for the second verb and substitutes it (two values consumed), so the
two behaviours differ on the same inputs. -/
theorem C5_contraejemplo :
    aplicar_DIRT archivoC5 parseC5 [("maria ama corre")] 1 2 none [5, 0]
        = .ok [("maria ama andar")]
    ∧ aplicar_DIRT_segunClaim archivoC5 parseC5 [("maria ama corre")] 1 2 none
        [5, 0] = .ok [("maria ama corre")]
    ∧ (buscarYSustituir parseC5 diccC5 1 2 ("maria ama corre")
        (parseC5 ("maria ama corre")) [5, 0]).2.1 = []
    ∧ (procesarFraseSegunClaim parseC5 diccC5 1 2 ("maria ama corre")
        (parseC5 ("maria ama corre")) [5, 0]).2.1 = [0]
    ∧ (Except.ok [("maria ama andar")] : Except Unit (List String))
        ≠ .ok [("maria ama corre")] := by
  have h1 := aplicar_dicc archivoC5 parseC5 [("maria ama corre")] 1 2 none
    [5, 0] jsonC5 diccC5 rfl construir_jsonC5 rfl
  have h2 := aplicarSegunClaim_dicc archivoC5 parseC5 [("maria ama corre")] 1 2
    none [5, 0] jsonC5 diccC5 rfl construir_jsonC5 rfl
  refine ⟨?_, ?_, rfl, rfl, ?_⟩
  · rw [h1]
    rfl
  · rw [h2]
    rfl
  · intro h
    exact absurd (Except.ok.inj h) (by decide)

/-- C5 (amended): per sentence the applier draws one uniform value for each
`VERB` token whose lemma is a key of the index — whether or not any entry
reaches `min_score` — until a draw below the substitution probability
coincides with a non-empty set of eligible entries; it then substitutes the
highest-scoring eligible equivalent (ties: first in the pre-sorted index) and
stops scanning; several draws may be consumed in one sentence.  Formally, on
any index produced by the builder the code's scan coincides with that
description. -/
theorem C5_refinamiento (modelo : Json) (d : DiccEquiv)
    (hd : construir_diccionario_equivalencias modelo = .ok d)
    (parse : Analizador) (p ms : ℚ) (frase : String) :
    ∀ (tokens : List Token) (azar : List ℚ),
      buscarYSustituir parse d p ms frase tokens azar
        = procesarFraseEnmendada parse d p ms frase tokens azar := by
  have hord := construir_listas_ordenadas modelo d hd
  intro tokens
  induction tokens with
  | nil =>
      intro azar
      rfl
  | cons t resto ih =>
      intro azar
      rcases hza : sacarAzar azar with ⟨r, azar'⟩
      rw [buscarYSustituir, procesarFraseEnmendada]
      by_cases hpos : t.pos = "VERB"
      · simp only [if_pos hpos]
        cases hbe : buscarEquiv d (enMinusculas t.lema) with
        | none =>
            exact ih azar
        | some entradas =>
            have hsorted : List.Pairwise (fun x y : String × ℚ => y.2 ≤ x.2)
                entradas :=
              hord _ (buscarEquiv_mem d _ _ hbe)
            have hfsorted : List.Pairwise (fun x y : String × ℚ => y.2 ≤ x.2)
                (entradas.filter (fun e => decide (ms ≤ e.2))) :=
              List.Pairwise.sublist (List.filter_sublist _) hsorted
            simp only [hza]
            by_cases hr : r < p
            · simp only [if_pos hr, mejor_de_ordenada _ hfsorted]
              cases hfil : entradas.filter (fun e => decide (ms ≤ e.2)) with
              | nil =>
                  simp only [hfil, List.head?]
                  exact ih azar'
              | cons mejor rest =>
                  simp only [hfil, List.head?]
            · simp only [if_neg hr]
              exact ih azar'
      · simp only [if_neg hpos]
        exact ih azar

/-- C5 (witness): the refinement applied to the two-verb sentence, the built
index and the draw stream of the counterexample. -/
theorem C5_testigo :
    buscarYSustituir parseC5 diccC5 1 2 ("maria ama corre")
        (parseC5 ("maria ama corre")) [5, 0]
      = procesarFraseEnmendada parseC5 diccC5 1 2 ("maria ama corre")
        (parseC5 ("maria ama corre")) [5, 0] :=
  C5_refinamiento jsonC5 diccC5 construir_jsonC5 parseC5 1 2
    ("maria ama corre") (parseC5 ("maria ama corre")) [5, 0]

/-- C2 (witness): the amended guarantee applied to a run with no model
file. -/
theorem C2_testigo :
    List.Forall₂ (fun fin fout => fout = fin
        ∨ ∃ t ∈ (fun _ => ([] : List Token)) fin, t.pos = "VERB"
            ∧ ∃ n, fout = reemplazarPrimera fin t.texto n)
        [("hola")] [("hola")] :=
  C2_enmendada none (fun _ => []) [("hola")] 1 2 none [] [("hola")] rfl

/-- C1: for every pair of verbs in the Verb Context map, the scorer's raw
score is `0.7 * jaccard + 0.3 * freq_ratio` over the distinct-lemma set
quantities of the spec; a pair sharing no distinct subject and no distinct
object lemma is skipped; a pair with at least one shared lemma is kept
exactly when the score clears the threshold, recorded with the rounded
score, the shared-context count and both frequencies. -/
theorem C1_formula_del_score (triples : List Triple) (umbral : ℚ)
    (va vb : String) :
    scoreCrudo triples va vb = scoreSpec triples va vb
    ∧ (sharedSpec triples va vb = 0 → evaluarPar triples umbral va vb = none)
    ∧ (0 < sharedSpec triples va vb →
        evaluarPar triples umbral va vb =
          if umbral ≤ scoreSpec triples va vb then
            some ⟨va, vb, round3 (scoreSpec triples va vb),
                  sharedSpec triples va vb,
                  freqSpec triples va, freqSpec triples vb⟩
          else none) := by
  refine ⟨scoreCrudo_eq_scoreSpec triples va vb, ?_, ?_⟩
  · intro h
    refine evaluarPar_none_de_shared_cero triples umbral va vb ?_
    rw [contextosCompartidos_eq_sharedSpec]
    exact h
  · intro h
    have hcc0 : 0 < contextosCompartidos triples va vb := by
      rw [contextosCompartidos_eq_sharedSpec]
      exact h
    have hne : ¬(((sujetosComunes triples va vb).isEmpty
        && (objetosComunes triples va vb).isEmpty) = true) := by
      intro hc
      obtain ⟨h1, h2⟩ := Bool.and_eq_true_iff.mp hc
      rw [contextosCompartidos] at hcc0
      rw [List.isEmpty_iff] at h1 h2
      rw [h1, h2] at hcc0
      simp at hcc0
    have htotSpec : 0 < totalSpec triples va ∧ 0 < totalSpec triples vb := by
      rw [sharedSpec] at h
      have hcase : 0 < (sujetosSpec triples va ∩ sujetosSpec triples vb).card
          ∨ 0 < (objetosSpec triples va ∩ objetosSpec triples vb).card := by
        omega
      rcases hcase with hx | hx
      · have ha1 : (sujetosSpec triples va ∩ sujetosSpec triples vb).card
            ≤ (sujetosSpec triples va).card :=
          Finset.card_le_card Finset.inter_subset_left
        have ha2 : (sujetosSpec triples va ∩ sujetosSpec triples vb).card
            ≤ (sujetosSpec triples vb).card :=
          Finset.card_le_card Finset.inter_subset_right
        constructor <;> rw [totalSpec] <;> omega
      · have ha1 : (objetosSpec triples va ∩ objetosSpec triples vb).card
            ≤ (objetosSpec triples va).card :=
          Finset.card_le_card Finset.inter_subset_left
        have ha2 : (objetosSpec triples va ∩ objetosSpec triples vb).card
            ≤ (objetosSpec triples vb).card :=
          Finset.card_le_card Finset.inter_subset_right
        constructor <;> rw [totalSpec] <;> omega
    have htot : 0 < totalContextos triples va ∧ 0 < totalContextos triples vb := by
      rw [totalContextos_eq_totalSpec, totalContextos_eq_totalSpec]
      exact htotSpec
    rw [evaluarPar, if_neg hne, if_pos htot, scoreCrudo_eq_scoreSpec,
      contextosCompartidos_eq_sharedSpec, freqDe_eq_freqSpec, freqDe_eq_freqSpec]

/-- C1 (witness): the formula theorem applied to a two-triple corpus whose
verbs share the subject lemma. -/
theorem C1_testigo :
    evaluarPar triplesC3 (1/10) ("fundar") ("crear") =
      if (1/10 : ℚ) ≤ scoreSpec triplesC3 ("fundar") ("crear") then
        some ⟨("fundar"), ("crear"),
              round3 (scoreSpec triplesC3 ("fundar") ("crear")),
              sharedSpec triplesC3 ("fundar") ("crear"),
              freqSpec triplesC3 ("fundar"), freqSpec triplesC3 ("crear")⟩
      else none :=
  (C1_formula_del_score triplesC3 (1/10) ("fundar") ("crear")).2.2 (by decide)

/-- C9: after aggregating any triple sequence, the sum of a verb's
subject-multiset counts equals the number of triples with that verb, and the
sum of its object-multiset counts equals the number of triples with that verb
and a non-sentinel object. -/
theorem C9_conservacion (triples : List Triple) (v : String) :
    sumaCuentas (sujetosDe triples v)
        = (triples.filter (fun t => decide (t.verbo = v))).length
    ∧ sumaCuentas (objetosDe triples v)
        = (triples.filter (fun t => decide (t.verbo = v ∧ t.objeto ≠ "_"))).length := by
  constructor
  · have h := sumaCuentas_fold_sujetos v triples []
    simpa [sujetosDe, sumaCuentas] using h
  · have h := sumaCuentas_fold_objetos v triples []
    simpa [objetosDe, sumaCuentas] using h

/-- C10: every record in a built model stores the three-decimal rounding of
the raw combined score of its verb pair; the threshold was compared against
the unrounded score; the stored score is within 1/2000 of the raw score and
is an integer multiple of 1/1000. -/
theorem C10_redondeo (triples : List Triple) (umbral : ℚ) (e : Equivalencia)
    (he : e ∈ calcular_similitudes_verbos triples umbral) :
    e.score = round3 (scoreCrudo triples e.a e.b)
    ∧ umbral ≤ scoreCrudo triples e.a e.b
    ∧ |e.score - scoreCrudo triples e.a e.b| ≤ 1/2000
    ∧ ∃ z : ℤ, e.score = (z : ℚ) / 1000 := by
  obtain ⟨p, hp, hne, hev⟩ := mem_calcular triples umbral e he
  obtain ⟨ha, hb, hscore, humbral, -, -, -, -⟩ := evaluarPar_some _ _ _ _ _ hev
  rw [ha, hb]
  refine ⟨hscore, humbral, ?_, ?_⟩
  · rw [hscore]
    exact abs_round3_sub _
  · rw [hscore, round3]
    exact ⟨_, rfl⟩

/-- C10 (witness): the rounding theorem applied to the record built from the
two-triple corpus at threshold 1/10. -/
theorem C10_testigo :
    ({ a := ("fundar"), b := ("crear"), score := 533/1000,
       contextos_compartidos := 1, freq_a := 1, freq_b := 1 } : Equivalencia).score
        = round3 (scoreCrudo triplesC3 ("fundar") ("crear"))
    ∧ (1/10 : ℚ) ≤ scoreCrudo triplesC3 ("fundar") ("crear")
    ∧ |(533/1000 : ℚ) - scoreCrudo triplesC3 ("fundar") ("crear")| ≤ 1/2000
    ∧ ∃ z : ℤ, (533/1000 : ℚ) = (z : ℚ) / 1000 := by
  simpa using C10_redondeo triplesC3 (1/10)
    ⟨("fundar"), ("crear"), 533/1000, 1, 1, 1⟩
    (by rw [calcular_triplesC3 (1/10) (by norm_num)]
        exact List.mem_singleton.mpr rfl)

/-- C3 (counterexample): with threshold 8/15 on the two-triple corpus, the
builder keeps the pair (its unrounded score is exactly 8/15) but stores the
rounded score 533/1000, which is strictly below the threshold — so a record
with stored score below the threshold does appear in the model. -/
theorem C3_contraejemplo :
    ∃ e ∈ calcular_similitudes_verbos triplesC3 (8/15), e.score < 8/15 := by
  refine ⟨⟨("fundar"), ("crear"), 533/1000, 1, 1, 1⟩, ?_, by norm_num⟩
  rw [calcular_triplesC3 (8/15) le_rfl]
  exact List.mem_singleton.mpr rfl

/-- C3 (amended): a pair is kept exactly when its *unrounded* score reaches
the threshold; the stored score, being rounded to three decimals, can
undercut the threshold by at most 1/2000. -/
theorem C3_umbral_enmendado (triples : List Triple) (umbral : ℚ)
    (e : Equivalencia) (he : e ∈ calcular_similitudes_verbos triples umbral) :
    umbral ≤ scoreCrudo triples e.a e.b ∧ umbral - 1/2000 ≤ e.score := by
  obtain ⟨p, hp, hne, hev⟩ := mem_calcular triples umbral e he
  obtain ⟨ha, hb, hscore, humbral, -, -, -, -⟩ := evaluarPar_some _ _ _ _ _ hev
  rw [ha, hb]
  refine ⟨humbral, ?_⟩
  have habs := abs_round3_sub (scoreCrudo triples p.1 p.2)
  rw [abs_le] at habs
  rw [hscore]
  linarith [habs.1]

/-- C8: the scoring formula is symmetric in its two verbs, every record in a
built model has distinct verbs, and no unordered verb pair occurs in two
records (in particular never both as `(A,B)` and as `(B,A)`). -/
theorem C8_simetria_unicidad (triples : List Triple) (umbral : ℚ) :
    (∀ va vb, scoreCrudo triples va vb = scoreCrudo triples vb va)
    ∧ (∀ e ∈ calcular_similitudes_verbos triples umbral, e.a ≠ e.b)
    ∧ List.Pairwise
        (fun e e' : Equivalencia =>
          ¬(e'.a = e.a ∧ e'.b = e.b) ∧ ¬(e'.a = e.b ∧ e'.b = e.a))
        (calcular_similitudes_verbos triples umbral) := by
  refine ⟨?_, ?_, ?_⟩
  · intro va vb
    rw [scoreCrudo_eq_scoreSpec, scoreCrudo_eq_scoreSpec, scoreSpec_comm]
  · intro e he
    obtain ⟨p, hp, hne, hev⟩ := mem_calcular triples umbral e he
    obtain ⟨ha, hb, -⟩ := evaluarPar_some _ _ _ _ _ hev
    rw [ha, hb]
    exact hne
  · have hpares := pairwise_paresOrdenados (verbosDe triples) (nodup_verbosDe triples)
    have hpw :
        (List.filterMap
          (fun p => if p.1 = p.2 then none else evaluarPar triples umbral p.1 p.2)
          (paresOrdenados (verbosDe triples))).Pairwise
          (fun e e' : Equivalencia =>
            ¬(e'.a = e.a ∧ e'.b = e.b) ∧ ¬(e'.a = e.b ∧ e'.b = e.a)) := by
      refine pairwise_filterMap_de _ ?_ hpares
      intro p q x y hR hfp hfq
      have hx : x.a = p.1 ∧ x.b = p.2 := by
        by_cases hpp : p.1 = p.2
        · rw [if_pos hpp] at hfp
          cases hfp
        · rw [if_neg hpp] at hfp
          obtain ⟨h1, h2, -⟩ := evaluarPar_some _ _ _ _ _ hfp
          exact ⟨h1, h2⟩
      have hy : y.a = q.1 ∧ y.b = q.2 := by
        by_cases hqq : q.1 = q.2
        · rw [if_pos hqq] at hfq
          cases hfq
        · rw [if_neg hqq] at hfq
          obtain ⟨h1, h2, -⟩ := evaluarPar_some _ _ _ _ _ hfq
          exact ⟨h1, h2⟩
      rw [hx.1, hx.2, hy.1, hy.2]
      exact hR
    have hsym : ∀ {x y : Equivalencia},
        (¬(y.a = x.a ∧ y.b = x.b) ∧ ¬(y.a = x.b ∧ y.b = x.a)) →
        (¬(x.a = y.a ∧ x.b = y.b) ∧ ¬(x.a = y.b ∧ x.b = y.a)) := by
      rintro x y ⟨h1, h2⟩
      constructor
      · rintro ⟨g1, g2⟩
        exact h1 ⟨g1.symm, g2.symm⟩
      · rintro ⟨g1, g2⟩
        exact h2 ⟨g2.symm, g1.symm⟩
    rw [calcular_similitudes_verbos]
    exact List.Pairwise.perm hpw (List.mergeSort_perm _ _).symm hsym

/-- C8 (witness): symmetry and distinctness, instantiated on the two-triple
corpus at threshold 1/10. -/
theorem C8_testigo :
    scoreCrudo triplesC3 ("fundar") ("crear")
        = scoreCrudo triplesC3 ("crear") ("fundar")
    ∧ (⟨("fundar"), ("crear"), 533/1000, 1, 1, 1⟩ : Equivalencia).a
        ≠ (⟨("fundar"), ("crear"), 533/1000, 1, 1, 1⟩ : Equivalencia).b := by
  have h := C8_simetria_unicidad triplesC3 (1/10)
  refine ⟨h.1 ("fundar") ("crear"), h.2.1 _ ?_⟩
  rw [calcular_triplesC3 (1/10) (by norm_num)]
  exact List.mem_singleton.mpr rfl

/-- C3 (witness): the amended threshold bound on the model built from the
two-triple corpus at threshold 1/10. -/
theorem C3_testigo :
    (1/10 : ℚ) ≤ scoreCrudo triplesC3 ("fundar") ("crear")
    ∧ (1/10 : ℚ) - 1/2000 ≤ (533/1000 : ℚ) := by
  simpa using C3_umbral_enmendado triplesC3 (1/10)
    ⟨("fundar"), ("crear"), 533/1000, 1, 1, 1⟩
    (by rw [calcular_triplesC3 (1/10) (by norm_num)]
        exact List.mem_singleton.mpr rfl)

end DIRT
